import Mathlib

/-!
Verification of the student-biodata CSV ingestion pipeline
(`src/lib/csv-processor.ts`, `src/lib/lookups.ts`, the `JobManager` in
`src/lib/auth.ts`) against its natural-language specification.

The TypeScript is shallowly embedded: each JS function becomes a Lean
function over explicit state.  External nondeterminism (bcrypt salts,
`Date.now()`/`Math.random()` inside the applicant-number generator, the
`Date.parse` locale fallback) is abstracted as oracle fields of `Env`.
The relational store is modelled as an in-memory list of joined
`dlc_student`/`dlc_student_id` rows; SQL parameter binding maps absent
optional values to NULL (the storage layer is out of scope for the spec
and is modelled at its interface).  The host timezone is taken to be
UTC, so `new Date(y, m, d).toISOString().split('T')[0]` is the
proleptic-Gregorian normalization of `(y, m, d)`.  Artificial
inter-row/inter-batch sleeps are pure no-ops and are dropped.
-/

namespace Uploader

/-! ## JavaScript string helpers

The string primitives are implemented structurally over the character
list `String.data` (rather than through the core iterator-based
functions, which are well-founded-recursive and do not reduce inside the
kernel), restricted to the ASCII range the input format uses. -/

/-- JS `\s` on the ASCII range (space, tab, newline, CR, VT, FF). -/
def isSpaceJs (c : Char) : Bool :=
  c == ' ' || c == '\t' || c == '\n' || c == '\r' || c == '\x0b' || c == '\x0c'

/-- `String.prototype.trim`: strip leading and trailing whitespace. -/
def jsTrim (s : String) : String :=
  String.mk (((s.data.dropWhile isSpaceJs).reverse.dropWhile isSpaceJs).reverse)

/-- `String.prototype.toLowerCase` (ASCII). -/
def lowerStr (s : String) : String :=
  String.mk (s.data.map Char.toLower)

/-- Split a character list on a separator character. -/
def splitChars (sep : Char) : List Char → List (List Char)
  | [] => [[]]
  | c :: rest =>
    match splitChars sep rest with
    | g :: gs => if c == sep then [] :: g :: gs else (c :: g) :: gs
    | [] => [[c]]

/-- `String.prototype.split` with a single-character separator. -/
def strSplit (s : String) (sep : Char) : List String :=
  (splitChars sep s.data).map String.mk

/-- Numeric value of a decimal digit string (callers guarantee all digits). -/
def strVal (s : String) : Nat :=
  s.data.foldl (fun n c => n * 10 + (c.toNat - 48)) 0

/-- Exactly `k` characters, all decimal digits (the regex fragment \d of length k). -/
def digitsLen (s : String) (k : Nat) : Bool :=
  s.data.length == k && s.data.all Char.isDigit

/-- Between `lo` and `hi` characters, all decimal digits (the regex fragment \d of bounded length). -/
def digitsBetween (s : String) (lo hi : Nat) : Bool :=
  decide (lo ≤ s.data.length) && decide (s.data.length ≤ hi) && s.data.all Char.isDigit

/-- Truthiness of a JS `string | undefined` value: present and non-empty. -/
def truthy : Option String → Bool
  | none => false
  | some s => s ≠ ""

/-- Blankness used by the processor's "needs update" checks:
`!v || v.trim() === ''` on a nullable string. -/
def jsBlank : Option String → Bool
  | none => true
  | some s => jsTrim s == ""

/-- Blankness as tested inside the SQL UPDATE CASE expressions:
`v IS NULL OR v = '' OR v = ' '` (note: only the single-space literal). -/
def sqlBlank : Option String → Bool
  | none => true
  | some s => s == "" || s == " "

/-- JS `x || null` on a `string | undefined` value: empty string collapses to null. -/
def jsOrNull : Option String → Option String
  | none => none
  | some s => if s == "" then none else some s

/-- JS `x?.trim() || undefined`: trim when present, blank collapses to undefined. -/
def trimOpt : Option String → Option String
  | none => none
  | some s => let t := jsTrim s; if t == "" then none else some t

/-- Case-insensitive string equality, modelling both `LOWER(a) = LOWER(b)`
in SQL and `a.toLowerCase() === b.toLowerCase()` in JS. -/
def ciEq (a b : String) : Bool :=
  lowerStr a == lowerStr b

/-- `Array.prototype.join`: concatenate with a separator. -/
def joinSep (sep : String) : List String → String
  | [] => ""
  | [x] => x
  | x :: xs => x ++ sep ++ joinSep sep xs

/-! ## Date handling: `CsvProcessor.parseDate`

`new Date(year, monthIndex, day)` rolls out-of-range months and days over
into neighbouring months/years and maps two-digit years into 1900–1999;
`isNaN(date.getTime())` is never true for in-range integer arguments, so
every regex match normalizes successfully.  The civil-calendar conversion
below implements that rollover exactly (proleptic Gregorian). -/

/-- Day count since 1970-01-01 of the civil date `(y, m, d)` with `m ∈ [1,12]`. -/
def daysFromCivil (y m d : Int) : Int :=
  let y := if m ≤ 2 then y - 1 else y
  let era := y.fdiv 400
  let yoe := y - era * 400
  let doy := (153 * (if 2 < m then m - 3 else m + 9) + 2).fdiv 5 + d - 1
  let doe := yoe * 365 + yoe.fdiv 4 - yoe.fdiv 100 + doy
  era * 146097 + doe - 719468

/-- Civil date `(y, m, d)` of a day count since 1970-01-01. -/
def civilFromDays (z : Int) : Int × Int × Int :=
  let z := z + 719468
  let era := z.fdiv 146097
  let doe := z - era * 146097
  let yoe := (doe - doe.fdiv 1460 + doe.fdiv 36524 - doe.fdiv 146096).fdiv 365
  let y := yoe + era * 400
  let doy := doe - (365 * yoe + yoe.fdiv 4 - yoe.fdiv 100)
  let mp := (5 * doy + 2).fdiv 153
  let d := doy - (153 * mp + 2).fdiv 5 + 1
  let m := if mp < 10 then mp + 3 else mp - 9
  (if m ≤ 2 then y + 1 else y, m, d)

/-- Left-pad the decimal representation of a non-negative integer to `w` digits. -/
def padNum (w : Nat) (n : Int) : String :=
  let s := toString n.toNat
  String.mk (List.replicate (w - s.length) '0') ++ s

/-- `new Date(y, mIdx, d).toISOString().split('T')[0]` under a UTC host:
two-digit years shift to 1900–1999, then month and day roll over. -/
def jsDateToIso (y mIdx d : Int) : String :=
  let y := if 0 ≤ y ∧ y ≤ 99 then y + 1900 else y
  let y2 := y + mIdx.fdiv 12
  let m2 := mIdx.emod 12 + 1
  let (yy, mm, dd) := civilFromDays (daysFromCivil y2 m2 1 + (d - 1))
  padNum 4 yy ++ "-" ++ padNum 2 mm ++ "-" ++ padNum 2 dd

/-- The regex `^(\d{4})-(\d{2})-(\d{2})$`, captures in source order. -/
def matchYMDdash (s : String) : Option (Nat × Nat × Nat) :=
  match strSplit s '-' with
  | [a, b, c] =>
    if digitsLen a 4 && digitsLen b 2 && digitsLen c 2 then
      some (strVal a, strVal b, strVal c)
    else none
  | _ => none

/-- The regex `^(\d{2})-(\d{2})-(\d{4})$`, captures in source order. -/
def matchDMYdash (s : String) : Option (Nat × Nat × Nat) :=
  match strSplit s '-' with
  | [a, b, c] =>
    if digitsLen a 2 && digitsLen b 2 && digitsLen c 4 then
      some (strVal a, strVal b, strVal c)
    else none
  | _ => none

/-- The regex `^(\d{2})/(\d{2})/(\d{4})$`, captures in source order. -/
def matchDMYslash (s : String) : Option (Nat × Nat × Nat) :=
  match strSplit s '/' with
  | [a, b, c] =>
    if digitsLen a 2 && digitsLen b 2 && digitsLen c 4 then
      some (strVal a, strVal b, strVal c)
    else none
  | _ => none

/-- The regex `^(\d{1,2})/(\d{1,2})/(\d{4})$`, captures in source order. -/
def matchDM12slash (s : String) : Option (Nat × Nat × Nat) :=
  match strSplit s '/' with
  | [a, b, c] =>
    if digitsBetween a 1 2 && digitsBetween b 1 2 && digitsLen c 4 then
      some (strVal a, strVal b, strVal c)
    else none
  | _ => none

/-- `CsvProcessor.parseDate`.  `lp` is the `new Date(dateStr)` locale-parse
fallback, abstracted as an oracle returning the resulting ISO date (or none
when `Date.parse` fails).  For the first format the captures destructure as
`[, year, month, day]`; for every other matched format the code destructures
`[, day, month, year]` — including the fourth, 1–2 digit format. -/
def parseDate (lp : String → Option String) (s : String) : Option String :=
  if s == "" then none
  else
    match matchYMDdash s with
    | some (y, m, d) => some (jsDateToIso (y : Int) ((m : Int) - 1) (d : Int))
    | none =>
      match matchDMYdash s with
      | some (d, m, y) => some (jsDateToIso (y : Int) ((m : Int) - 1) (d : Int))
      | none =>
        match matchDMYslash s with
        | some (d, m, y) => some (jsDateToIso (y : Int) ((m : Int) - 1) (d : Int))
        | none =>
          match matchDM12slash s with
          | some (d, m, y) => some (jsDateToIso (y : Int) ((m : Int) - 1) (d : Int))
          | none => lp s

/-- The date parser exactly as the spec sentence words it: same format
list in the same order, but the fourth format is read month-first
("M/D/YYYY with 1-2 digit month first and day second"). -/
def specParseDateClaim (lp : String → Option String) (s : String) : Option String :=
  if s == "" then none
  else
    match matchYMDdash s with
    | some (y, m, d) => some (jsDateToIso (y : Int) ((m : Int) - 1) (d : Int))
    | none =>
      match matchDMYdash s with
      | some (d, m, y) => some (jsDateToIso (y : Int) ((m : Int) - 1) (d : Int))
      | none =>
        match matchDMYslash s with
        | some (d, m, y) => some (jsDateToIso (y : Int) ((m : Int) - 1) (d : Int))
        | none =>
          match matchDM12slash s with
          | some (m, d, y) => some (jsDateToIso (y : Int) ((m : Int) - 1) (d : Int))
          | none => lp s

/-- First matcher in the list that accepts the string. -/
def firstSome (fs : List (String → Option α)) (s : String) : Option α :=
  match fs with
  | [] => none
  | f :: rest =>
    match f s with
    | some v => some v
    | none => firstSome rest s

/-- Reorder a day-first capture triple into year/month/day order. -/
def swapDMY : Nat × Nat × Nat → Nat × Nat × Nat
  | (d, m, y) => (y, m, d)

/-- The amended specification of the date parser: the four explicit
formats are tried in order, and the fourth — like the second and third —
assigns the first capture to the day; any match is normalized through the
civil-calendar rollover; otherwise the locale parse decides. -/
def specParseDateAmended (lp : String → Option String) (s : String) : Option String :=
  if s == "" then none
  else
    match firstSome
        [fun t => matchYMDdash t,
         fun t => (matchDMYdash t).map swapDMY,
         fun t => (matchDMYslash t).map swapDMY,
         fun t => (matchDM12slash t).map swapDMY] s with
    | some (y, m, d) => some (jsDateToIso (y : Int) ((m : Int) - 1) (d : Int))
    | none => lp s

/-! ## Lookup resolver: `DatabaseLookups` (`src/lib/lookups.ts`) -/

/-- A row of the `dlc_lga` reference table. -/
structure LgaRow where
  lga_id : Int
  lga_name : String
  state_id : Int
deriving Repr, DecidableEq

/-- `DatabaseLookups.lookupLga`: blank input short-circuits; a truthy state
id scopes the first query to name-and-state; otherwise (or on scoped miss)
a name-only `LIMIT 1` lookup is flagged as fallback. -/
def lookupLga (lgas : List LgaRow) (lgaName : String) (stateId : Option Int) :
    Option Int × Bool :=
  if jsTrim lgaName == "" then (none, false)
  else
    let scopedHit : Option LgaRow :=
      match stateId with
      | some sid =>
        if sid ≠ 0 then
          lgas.find? (fun r => ciEq r.lga_name (jsTrim lgaName) && r.state_id == sid)
        else none
      | none => none
    match scopedHit with
    | some r => (some r.lga_id, false)
    | none =>
      match lgas.find? (fun r => ciEq r.lga_name (jsTrim lgaName)) with
      | some r => (some r.lga_id, true)
      | none => (none, false)

/-- The LGA lookup exactly as the claim words it: whenever a state
identifier is supplied (any value), the scoped name-and-state match is
tried first and returned unflagged on hit. -/
def specLookupLgaClaim (lgas : List LgaRow) (lgaName : String) (stateId : Option Int) :
    Option Int × Bool :=
  if jsTrim lgaName == "" then (none, false)
  else
    let nameOnly :=
      match lgas.find? (fun r => ciEq r.lga_name (jsTrim lgaName)) with
      | some r => (some r.lga_id, true)
      | none => (none, false)
    match stateId with
    | some sid =>
      match lgas.find? (fun r => ciEq r.lga_name (jsTrim lgaName) && r.state_id == sid) with
      | some r => (some r.lga_id, false)
      | none => nameOnly
    | none => nameOnly

/-- The amended claim: a supplied state identifier of 0 is treated as
absent (JS truthiness of the `if (stateId)` guard); otherwise exactly the
claim's decision order. -/
def specLookupLgaAmended (lgas : List LgaRow) (lgaName : String) (stateId : Option Int) :
    Option Int × Bool :=
  if jsTrim lgaName == "" then (none, false)
  else
    let nameOnly :=
      match lgas.find? (fun r => ciEq r.lga_name (jsTrim lgaName)) with
      | some r => (some r.lga_id, true)
      | none => (none, false)
    match stateId with
    | some sid =>
      if sid = 0 then nameOnly
      else
        match lgas.find? (fun r => ciEq r.lga_name (jsTrim lgaName) && r.state_id == sid) with
        | some r => (some r.lga_id, false)
        | none => nameOnly
    | none => nameOnly

/-! ## Job registry sweep: `JobManager` (`src/lib/auth.ts`) -/

/-- Retention window for completed jobs: `JOB_CLEANUP_INTERVAL` (24 h in ms). -/
def jobCleanupIntervalMs : Int := 24 * 60 * 60 * 1000

/-- Staleness ceiling for running jobs (2 h in ms). -/
def staleJobCeilingMs : Int := 2 * 60 * 60 * 1000

/-- A `Job` entry of the registry, with timestamps in epoch milliseconds. -/
structure RegJob where
  id : String
  createdAt : Int
  completedAt : Option Int
deriving Repr, DecidableEq

/-- `JobManager.cleanupJob`: deletes the entry (and its artifact) only when
the job exists *and* has a completion timestamp. -/
def cleanupJob (jobs : List RegJob) (jobId : String) : List RegJob :=
  match jobs.find? (fun j => j.id == jobId) with
  | some j =>
    if j.completedAt.isSome then jobs.filter (fun j => !(j.id == jobId)) else jobs
  | none => jobs

/-- One pass of the `startCleanupScheduler` interval body: snapshot the
entries, then for each job either purge it past the retention window
(completed) or hand it to `cleanupJob` past the staleness ceiling (stuck). -/
def sweepPass (now : Int) (jobs : List RegJob) : List RegJob :=
  jobs.foldl
    (fun acc j =>
      match j.completedAt with
      | some t =>
        if jobCleanupIntervalMs < now - t then cleanupJob acc j.id else acc
      | none =>
        if staleJobCeilingMs < now - j.createdAt then cleanupJob acc j.id else acc)
    jobs

/-! ## Remaining lookups and the record transformer -/

/-- A parsed CSV data row as Papa delivers it with `header: true`: an
association of header name to cell text.  A key that is absent models a
JS `undefined` field access. -/
abbrev Row := List (String × String)

/-- JS property access `row[k]` (`undefined` when the key is absent). -/
def getField (row : Row) (k : String) : Option String :=
  (row.find? (fun p => p.1 == k)).map (fun p => p.2)

/-- The environment: reference tables plus oracles for the external
nondeterminism (bcrypt, candidate applicant numbers, locale date parse). -/
structure Env where
  maritalStatuses : List (Nat × String)
  sessions : List (Nat × String)
  courses : List (Nat × String)
  states : List (Int × String)
  lgas : List LgaRow
  gen : Nat → String
  hash : String → String
  localeParse : String → Option String

/-- `DatabaseLookups.lookupMaritalStatus`: case-insensitive match on the
trimmed name, defaulting to serial 1 flagged as default. -/
def lookupMaritalStatus (env : Env) (statusName : String) : Nat × Bool :=
  match env.maritalStatuses.find? (fun p => ciEq p.2 (jsTrim statusName)) with
  | some p => (p.1, false)
  | none => (1, true)

/-- MySQL `CAST(s AS UNSIGNED)`: value of the leading digit run. -/
def mysqlUnsigned (s : String) : Nat :=
  strVal (String.mk (s.data.takeWhile Char.isDigit))

/-- `DatabaseLookups.lookupSession`: the entry-year string matches either
the session name exactly or the `name/(name+1)` year-range spelling. -/
def lookupSession (env : Env) (yearOfEntry : String) : Option Nat :=
  (env.sessions.find?
    (fun p =>
      p.2 == yearOfEntry ||
      p.2 ++ "/" ++ toString (mysqlUnsigned p.2 + 1) == yearOfEntry)).map (fun p => p.1)

/-- `DatabaseLookups.lookupCourseOfStudy`: department text first, falling
back to the programme text when department is blank; case-insensitive. -/
def lookupCourseOfStudy (env : Env) (department : Option String) (programme : Option String) :
    Option Nat :=
  let searchTerm : Option String :=
    match department with
    | some d => if jsTrim d ≠ "" then some (jsTrim d) else trimOpt programme
    | none => trimOpt programme
  match searchTerm with
  | none => none
  | some t => (env.courses.find? (fun p => ciEq p.2 t)).map (fun p => p.1)

/-- `DatabaseLookups.lookupState`: blank yields none, else a
case-insensitive match on the trimmed name. -/
def lookupState (env : Env) (stateName : String) : Option Int :=
  if jsTrim stateName == "" then none
  else (env.states.find? (fun p => ciEq p.2 (jsTrim stateName))).map (fun p => p.1)

/-- A joined `dlc_student` / `dlc_student_id` row of the store (only the
fields the pipeline reads or writes). -/
structure DbRecord where
  applicantNo : String
  applicant_no : String
  matric_no : String
  lastName : String
  firstName : String
  gender : String
  date_of_birth : String
  emailAddress : Option String
  studyMode : Option String
  password : Option String
  stud_email : Option String
deriving Repr, DecidableEq

/-- `DatabaseLookups.generateApplicantNo`: try up to 20 oracle-supplied
candidates, accepting the first that collides with neither stored
applicant-number column; exhaustion is a per-record fatal error.  `gc`
numbers the oracle calls across the job. -/
def generateApplicantNo (env : Env) (db : List DbRecord) : Nat → Nat → Except String (String × Nat)
  | 0, _ => .error "Failed to generate unique applicant number after 20 attempts"
  | n + 1, gc =>
    let cand := env.gen gc
    if db.any (fun r => r.applicantNo == cand || r.applicant_no == cand) then
      generateApplicantNo env db n (gc + 1)
    else .ok (cand, gc + 1)

/-- `CsvProcessor.isValidEmail`: the regex
`^[^\s@]+@[^\s@]+\.[^\s@]+$` — exactly one at-sign, no whitespace, and a
dot strictly inside the domain part. -/
def isValidEmail (s : String) : Bool :=
  match strSplit s '@' with
  | [a, d] =>
    a ≠ "" && a.data.all (fun c => !(isSpaceJs c)) && d.data.all (fun c => !(isSpaceJs c)) &&
    (List.range d.data.length).any
      (fun i => decide (0 < i) && decide (i + 1 < d.data.length) && d.data.get? i == some '.')
  | _ => false

/-- `CsvProcessor.isValidPhone`: nonempty, only digits, whitespace,
hyphens, parentheses and plus signs. -/
def isValidPhone (s : String) : Bool :=
  s ≠ "" && s.data.all (fun c => c.isDigit || isSpaceJs c || c == '-' || c == '(' || c == ')' || c == '+')

/-- `CsvProcessor.normalizeGender`. -/
def normalizeGender (gender : String) : Option String :=
  let n := jsTrim (lowerStr gender)
  if n == "m" || n == "male" then some "Male"
  else if n == "f" || n == "female" then some "Female"
  else none

/-- `CsvProcessor.mapStudyMode`: substring match on the digits 5/4/3 of
the lower-cased programme duration, defaulting to `FULL_PROGRAMME`. -/
def mapStudyMode (duration : String) : String :=
  if duration == "" then "FULL_PROGRAMME"
  else
    let d := lowerStr duration
    if d.data.contains '5' then "FULL_PROGRAMME"
    else if d.data.contains '4' then "DIRECT_ENTRY"
    else if d.data.contains '3' then "FAST_TRACK"
    else "FULL_PROGRAMME"

/-- The canonical record pair (`DlcStudent` plus `DlcStudentId`) produced
by a successful transformation. -/
structure CanonRecord where
  applicantNo : String
  lastName : String
  firstName : String
  middleName : Option String
  gender : String
  date_of_birth : String
  maritalStatus : Nat
  maritalIsDefault : Bool
  religion : Option String
  phoneNo : Option String
  emailAddress : Option String
  application_session : Nat
  course_of_study : Nat
  country : Option String
  studyMode : String
  password : String
  profession : Option String
  lga_origin : Option Int
  lgaUsedFallback : Bool
  matric_no : String
  stud_email : Option String
deriving Repr, DecidableEq

/-- The fixed required-field list checked by `processRecord`, in source order. -/
def requiredFieldNames : List String :=
  ["Matric Number", "Last Name", "First Name", "Gender", "DoB", "Year Of Entry", "Department"]

/-- First required field that is absent or blank after trimming. -/
def firstMissingRequired (row : Row) : Option String :=
  requiredFieldNames.find? (fun f => jsBlank (getField row f))

/-- `CsvProcessor.processRecord` as invoked from `processBatch` (the
batch-level duplicate check has already run, `skipDuplicateCheck` is
true): validation in source order, lookups, applicant-number generation,
credential hashing, and assembly of the canonical pair.  Returns the new
generator call counter alongside the record. -/
def transformRecord (env : Env) (db : List DbRecord) (gc : Nat) (row : Row) :
    Except String (CanonRecord × Nat) :=
  match firstMissingRequired row with
  | some f => .error ("Missing required field: " ++ f)
  | none =>
    let genderRaw := (getField row "Gender").getD ""
    match normalizeGender genderRaw with
    | none => .error ("Invalid gender: " ++ genderRaw)
    | some gender =>
      let dobRaw := (getField row "DoB").getD ""
      match parseDate env.localeParse dobRaw with
      | none => .error ("Invalid date of birth: " ++ dobRaw)
      | some dateOfBirth =>
        let email := getField row "Email"
        if truthy email && !(isValidEmail (email.getD "")) then
          .error ("Invalid email format: " ++ email.getD "")
        else
          let phone := getField row "Phone"
          if truthy phone && !(isValidPhone (phone.getD "")) then
            .error ("Invalid phone format: " ++ phone.getD "")
          else
            let ms := lookupMaritalStatus env ((getField row "Marital Status").getD "")
            let yearRaw := (getField row "Year Of Entry").getD ""
            match lookupSession env yearRaw with
            | none => .error ("Session not found for year: " ++ yearRaw)
            | some sessionId =>
              match lookupCourseOfStudy env (getField row "Department") (getField row "Programme") with
              | none =>
                .error ("Course of study not found for department: " ++
                  (getField row "Department").getD "")
              | some courseId =>
                let stateId := lookupState env ((getField row "State Of Origin").getD "")
                let lga := lookupLga env.lgas ((getField row "LGA").getD "") stateId
                match generateApplicantNo env db 20 gc with
                | .error e => .error e
                | .ok (applicantNo, gc') =>
                  let hashedPassword := env.hash (jsTrim ((getField row "Last Name").getD ""))
                  let studyMode := mapStudyMode ((getField row "Programme Duration").getD "")
                  .ok
                    ({ applicantNo := applicantNo
                       lastName := jsTrim ((getField row "Last Name").getD "")
                       firstName := jsTrim ((getField row "First Name").getD "")
                       middleName := trimOpt (getField row "Othernames")
                       gender := gender
                       date_of_birth := dateOfBirth
                       maritalStatus := ms.1
                       maritalIsDefault := ms.2
                       religion := trimOpt (getField row "Religion")
                       phoneNo := trimOpt phone
                       emailAddress := trimOpt email
                       application_session := sessionId
                       course_of_study := courseId
                       country := trimOpt (getField row "Nationality")
                       studyMode := studyMode
                       password := hashedPassword
                       profession := trimOpt (getField row "Profession")
                       lga_origin := lga.1
                       lgaUsedFallback := lga.2
                       matric_no := jsTrim ((getField row "Matric Number").getD "")
                       stud_email := trimOpt email }, gc')

/-! ## Record upserter: `CsvProcessor.upsertRecord` -/

/-- The merge applied when the existence check finds a row: compute per
field whether the stored value is blank (`!v || v.trim()===''`); if no
field needs an update, no statement is issued; otherwise the UPDATE's
CASE expressions overwrite exactly the fields that are NULL, `''` or
`' '`, and the `dlc_student_id` contact echo gets its own conditional
update guarded by the incoming value being truthy. -/
def mergeExisting (env : Env) (rec : CanonRecord) (ex : DbRecord) : Bool × DbRecord :=
  let needsPasswordUpdate := jsBlank ex.password
  let needsEmailUpdate := jsBlank ex.emailAddress
  let needsStudEmailUpdate := jsBlank ex.stud_email
  let needsStudyModeUpdate := jsBlank ex.studyMode
  if !needsPasswordUpdate && !needsEmailUpdate && !needsStudEmailUpdate && !needsStudyModeUpdate then
    (false, ex)
  else
    let updatePassword : Option String :=
      if needsPasswordUpdate && rec.lastName ≠ "" then some (env.hash (lowerStr rec.lastName))
      else ex.password
    (true,
      { ex with
        emailAddress :=
          if sqlBlank ex.emailAddress then jsOrNull rec.emailAddress else ex.emailAddress
        studyMode :=
          if sqlBlank ex.studyMode then jsOrNull (some rec.studyMode) else ex.studyMode
        password := if sqlBlank ex.password then updatePassword else ex.password
        stud_email :=
          if needsStudEmailUpdate && truthy rec.stud_email && sqlBlank ex.stud_email then
            rec.stud_email
          else ex.stud_email })

/-- The row inserted when no existing record matches: both entities in one
transaction, absent optional values stored as NULL. -/
def insertNew (rec : CanonRecord) : DbRecord :=
  { applicantNo := rec.applicantNo
    applicant_no := rec.applicantNo
    matric_no := rec.matric_no
    lastName := rec.lastName
    firstName := rec.firstName
    gender := rec.gender
    date_of_birth := rec.date_of_birth
    emailAddress := rec.emailAddress
    studyMode := some rec.studyMode
    password := some rec.password
    stud_email := rec.stud_email }

/-- `CsvProcessor.upsertRecord`: look up the first row matching on either
applicant number or matric number; merge into it, or insert a fresh pair.
Returns whether a database write occurred, with the new store. -/
def upsertRecord (env : Env) (rec : CanonRecord) : List DbRecord → Bool × List DbRecord
  | [] => (true, [insertNew rec])
  | ex :: rest =>
    if ex.applicantNo == rec.applicantNo || ex.matric_no == rec.matric_no then
      let (wrote, ex') := mergeExisting env rec ex
      (wrote, ex' :: rest)
    else
      let (wrote, rest') := upsertRecord env rec rest
      (wrote, ex :: rest')

/-! ## Streaming batch processor: `CsvProcessor.processFile` -/

/-- A Progress snapshot as pushed to `onProgress` (`JobProgress`);
`hasEndTime` models whether `endTime` has been stamped. -/
structure Snapshot where
  progressPct : Rat
  totalRecords : Int
  processedRecords : Nat
  insertedRecords : Nat
  failedRecordsCount : Nat
  currentRow : Nat
  message : String
  isComplete : Bool
  hasEndTime : Bool
deriving Repr, DecidableEq

/-- A failed-record artifact line: original row, failure reason, row number. -/
structure FailedRecord where
  originalRow : Row
  reason : String
  rowNumber : Nat
deriving Repr, DecidableEq

/-- The processor's full mutable state: the progress fields, the parse
phase's accumulator, the batch-local duplicate set, the store, the failure
artifact, instrumentation counters (`upsertCalls`, `transformCalls`), the
cooperative-cancellation clock, and the trace of emitted snapshots. -/
structure ProcState where
  progressPct : Rat
  totalRecords : Int
  processed : Nat
  inserted : Nat
  failed : Nat
  currentRow : Nat
  message : String
  isComplete : Bool
  hasEndTime : Bool
  rowNumber : Nat
  headerProcessed : Bool
  batch : List (Row × Nat)
  rejected : Option String
  seen : List (Option String)
  db : List DbRecord
  artifact : List FailedRecord
  errors : List FailedRecord
  genCounter : Nat
  upsertCalls : Nat
  transformCalls : Nat
  clock : Nat
  cancelEmitted : Bool
  trace : List Snapshot
deriving Repr, DecidableEq

/-- Job options: dry-run flag, batch size, the cooperative-cancellation
flip point (none = `cancel()` is never called; `some k` = the flag becomes
true after the k-th cooperative checkpoint), and whether the up-front
record count fails. -/
structure Config where
  dryRun : Bool
  batchSize : Nat
  cancelAt : Option Nat
  countFails : Bool

/-- Whether the cooperative flag reads true at clock value `c`. -/
def cancelledAt (cancelAt : Option Nat) (c : Nat) : Bool :=
  match cancelAt with
  | none => false
  | some k => decide (k ≤ c)

/-- The Progress snapshot copied out of the current state. -/
def snap (st : ProcState) : Snapshot :=
  { progressPct := st.progressPct
    totalRecords := st.totalRecords
    processedRecords := st.processed
    insertedRecords := st.inserted
    failedRecordsCount := st.failed
    currentRow := st.currentRow
    message := st.message
    isComplete := st.isComplete
    hasEndTime := st.hasEndTime }

/-- `emitProgress`: push a copy of the current progress to the observer. -/
def emit (st : ProcState) : ProcState :=
  { st with trace := st.trace ++ [snap st] }

/-- Advance the cooperative-checkpoint clock by one. -/
def tick (st : ProcState) : ProcState :=
  { st with clock := st.clock + 1 }

/-- Read the cooperative flag at a checkpoint.  The first checkpoint at
which it reads true also carries the `cancel()` call's own side effect:
the message mutation and its immediate emission. -/
def checkCancel (cfg : Config) (st : ProcState) : ProcState × Bool :=
  if cancelledAt cfg.cancelAt st.clock then
    if st.cancelEmitted then (st, true)
    else
      (emit { st with message := "Cancelling after current batch...", cancelEmitted := true },
        true)
  else (st, false)

/-- The batch-local duplicate key: `row['Matric Number']?.trim()`
(undefined when the field is absent). -/
def jsKey (row : Row) : Option String :=
  (getField row "Matric Number").map jsTrim

/-- The body of the per-row loop of `processBatch`, after the cancellation
check: batch-local duplicate suppression, transformation, dry-run or
upsert accounting, failure routing, and the per-row progress update
(skipped by the duplicate `continue`). -/
def rowBody (env : Env) (cfg : Config) (st : ProcState) (rn : Row × Nat) : ProcState :=
  let key := jsKey rn.1
  if st.seen.contains key then
    { st with processed := st.processed + 1 }
  else
    let st0 := { st with seen := key :: st.seen }
    let st1 :=
      match transformRecord env st0.db st0.genCounter rn.1 with
      | .ok (rec, gc') =>
        let st := { st0 with genCounter := gc', transformCalls := st0.transformCalls + 1 }
        if cfg.dryRun then
          { st with inserted := st.inserted + 1, processed := st.processed + 1 }
        else
          let (wrote, db') := upsertRecord env rec st.db
          let st := { st with db := db', upsertCalls := st.upsertCalls + 1 }
          let st := if wrote then { st with inserted := st.inserted + 1 } else st
          { st with processed := st.processed + 1 }
      | .error msg =>
        { st0 with
          transformCalls := st0.transformCalls + 1
          errors := st0.errors ++ [FailedRecord.mk rn.1 msg rn.2]
          artifact := st0.artifact ++ [FailedRecord.mk rn.1 msg rn.2]
          failed := st0.failed + 1
          processed := st0.processed + 1 }
    let st2 := { st1 with currentRow := st1.processed }
    -- `this.progress.totalRecords` is never written inside the row body,
    -- so it is read off the incoming state.
    if 0 < st.totalRecords then
      { st2 with progressPct := (st2.processed : Rat) / (st.totalRecords : Rat) * 100 }
    else st2

/-- The per-row loop of `processBatch`: cooperative cancellation breaks
the loop at the top of each iteration. -/
def runRows (env : Env) (cfg : Config) (st : ProcState) : List (Row × Nat) → ProcState
  | [] => st
  | rn :: rest =>
    let (st, c) := checkCancel cfg st
    let st := tick st
    if c then st
    else runRows env cfg (rowBody env cfg st rn) rest

/-- One `processBatch` call: a batch-start message is emitted, the
batch-local duplicate set is fresh, the rows run, and a final emission
closes the batch. -/
def runBatch (env : Env) (cfg : Config) (st : ProcState) (chunk : List (Row × Nat)) : ProcState :=
  let st := emit { st with message := "Processing batch of " ++ toString chunk.length ++ " records..." }
  let st := { st with seen := [] }
  emit (runRows env cfg st chunk)

/-- The batch grouping of the `complete` callback: accumulate rows,
flushing when the configured size is reached or at the last row. -/
def makeChunksGo (bs : Nat) : List α → List α → List (List α)
  | [], _ => []
  | [x], acc => [acc ++ [x]]
  | x :: y :: rest, acc =>
    let acc := acc ++ [x]
    if bs ≤ acc.length then acc :: makeChunksGo bs (y :: rest) []
    else makeChunksGo bs (y :: rest) acc

/-- Group collected rows into batches of the configured size. -/
def makeChunks (bs : Nat) (l : List α) : List (List α) :=
  makeChunksGo bs l []

/-- Process the batches sequentially; a batch whose guard observes the
cancellation flag is not started (and, the flag being latched, neither is
any later one). -/
def runChunks (env : Env) (cfg : Config) (st : ProcState) : List (List (Row × Nat)) → ProcState
  | [] => st
  | c :: cs =>
    if c ≠ [] && !(cancelledAt cfg.cancelAt st.clock) then
      runChunks env cfg (runBatch env cfg st c) cs
    else runChunks env cfg st cs

/-- List of required headers absent (case-insensitively) from the parsed
header row. -/
def missingHeaders (headers : List String) : List String :=
  requiredFieldNames.filter (fun f => !(headers.any (fun h => ciEq h f)))

/-- One Papa `step` callback during the processing parse.  With
`header: true` Papa consumes the header line itself, so the first `step`
event carries the first *data* row; the code validates the headers there
and then returns, dropping that row from the batch.  After a header
rejection the promise is already settled; later steps re-validate and
re-reject as no-ops. -/
def parseStep (cfg : Config) (headers : List String) (st : ProcState) (row : Row) : ProcState :=
  let (st, c) := checkCancel cfg st
  let st := tick st
  if c then st
  else
    let st := { st with rowNumber := st.rowNumber + 1 }
    if !st.headerProcessed then
      match missingHeaders headers with
      | [] => emit { st with headerProcessed := true, message := "Processing CSV rows..." }
      | ms =>
        { st with
          rejected :=
            match st.rejected with
            | some m => some m
            | none => some ("Missing required CSV headers: " ++ joinSep ", " ms) }
    else { st with batch := st.batch ++ [(row, st.rowNumber)] }

/-- The state built by the `CsvProcessor` constructor, which emits the
initial snapshot immediately. -/
def initState : ProcState :=
  emit
    { progressPct := 0
      totalRecords := 0
      processed := 0
      inserted := 0
      failed := 0
      currentRow := 0
      message := "Job created, waiting to start processing..."
      isComplete := false
      hasEndTime := false
      rowNumber := 0
      headerProcessed := false
      batch := []
      rejected := none
      seen := []
      db := []
      artifact := []
      errors := []
      genCounter := 0
      upsertCalls := 0
      transformCalls := 0
      clock := 0
      cancelEmitted := false
      trace := [] }

/-- The opening of `processFile`: the "Counting" emission, the up-front
record count (or its zeroed fallback), and the "Initializing" emission. -/
def preParseState (cfg : Config) (rows : List Row) : ProcState :=
  let st := initState
  let st := emit { st with message := "Counting total records..." }
  let st :=
    if cfg.countFails then { st with totalRecords := 0 }
    else { st with totalRecords := (rows.length : Int) }
  emit { st with message := "Initializing CSV processing..." }

/-- The tail of the `complete` callback: the lazy total back-fill, then
the finalization that latches completion, clamps progress to 100, stamps
the end time, and composes the summary (or cancellation) message. -/
def finishRun (cfg : Config) (st : ProcState) : ProcState :=
  let st :=
    if st.totalRecords = 0 then { st with totalRecords := (st.rowNumber : Int) - 1 } else st
  let st :=
    { st with
      isComplete := true
      hasEndTime := true
      progressPct := 100
      message :=
        if cancelledAt cfg.cancelAt st.clock then "Processing cancelled"
        else
          "Processing complete. " ++ toString st.inserted ++
            " records updated/inserted, " ++ toString st.failed ++ " failed." }
  emit st

/-- `CsvProcessor.processFile` end to end: the up-front count, the
initializing emission, the streaming parse with header validation, the
sequential batches, and the finalization.  The `Except` result is the
promise's settlement: the first header rejection wins even though the
`complete` callback still runs its finalization. -/
def processFile (env : Env) (cfg : Config) (headers : List String) (rows : List Row) :
    Except String Unit × ProcState :=
  let st := preParseState cfg rows
  let st := rows.foldl (parseStep cfg headers) st
  let st := runChunks env cfg st (makeChunks cfg.batchSize st.batch)
  let st := finishRun cfg st
  (match st.rejected with
   | some m => .error m
   | none => .ok (), st)

/-! ## Trace well-formedness (for the progress-monotonicity property) -/

/-- Counterwise ordering between Progress snapshots: each of the
processed/inserted/failed counters is no smaller in the second. -/
def SnapLe (a b : Snapshot) : Prop :=
  a.processedRecords ≤ b.processedRecords ∧
  a.insertedRecords ≤ b.insertedRecords ∧
  a.failedRecordsCount ≤ b.failedRecordsCount

instance : IsTrans Snapshot SnapLe :=
  ⟨fun _ _ _ h1 h2 =>
    ⟨le_trans h1.1 h2.1, le_trans h1.2.1 h2.2.1, le_trans h1.2.2 h2.2.2⟩⟩

/-- Invariant tying the emitted trace to the live state: adjacent
snapshots are counter-monotone, every emitted progress percentage is at
most 100, the last emitted snapshot is dominated by the live counters,
and the live progress is at most 100. -/
def GoodTrace (st : ProcState) : Prop :=
  List.Chain' SnapLe st.trace ∧
  (∀ s ∈ st.trace, s.progressPct ≤ 100) ∧
  (∀ s, st.trace.getLast? = some s → SnapLe s (snap st)) ∧
  st.progressPct ≤ 100

/-! ## Concrete instances used by the settled claims -/

/-- Reference environment: the 2023 session, the CS course, deterministic
oracles. -/
def env1 : Env :=
  { maritalStatuses := []
    sessions := [(1, "2023")]
    courses := [(1, "CS")]
    states := []
    lgas := []
    gen := fun n => "AP" ++ toString n
    hash := fun s => "h" ++ s
    localeParse := fun _ => none }

/-- Default job options: live run, batch size 500, never cancelled,
up-front count succeeds. -/
def cfg1 : Config := { dryRun := false, batchSize := 500, cancelAt := none, countFails := false }

/-- Job options with `cancel()` observed from the very first checkpoint. -/
def cfgC : Config := { dryRun := false, batchSize := 500, cancelAt := some 0, countFails := false }

/-- The seven required headers. -/
def headers7 : List String :=
  ["Matric Number", "Last Name", "First Name", "Gender", "DoB", "Year Of Entry", "Department"]

/-- Row 1 of the spec's example scenario. -/
def row1 : Row :=
  [("Matric Number", "A1"), ("Last Name", "Doe"), ("First Name", "John"), ("Gender", "Male"),
   ("DoB", "1995-05-15"), ("Year Of Entry", "2023"), ("Department", "CS")]

/-- Row 2 of the spec's example scenario (duplicate identifier). -/
def row2 : Row :=
  [("Matric Number", "A1"), ("Last Name", "Dup"), ("First Name", "Dup"), ("Gender", "Male"),
   ("DoB", "1995-05-15"), ("Year Of Entry", "2023"), ("Department", "CS")]

/-- Row 3 of the spec's example scenario (invalid gender and birth date). -/
def row3 : Row :=
  [("Matric Number", "A2"), ("Last Name", "X"), ("First Name", "Y"), ("Gender", "Unknown"),
   ("DoB", "bad-date"), ("Year Of Entry", "2023"), ("Department", "CS")]

/-- The spec's example scenario run end to end. -/
def scenario1 : Except String Unit × ProcState :=
  processFile env1 cfg1 headers7 [row1, row2, row3]

/-- The required headers with `DoB` removed. -/
def headersNoDob : List String :=
  ["Matric Number", "Last Name", "First Name", "Gender", "Year Of Entry", "Department"]

/-- A valid-looking row except for its gender, sharing identifier A1. -/
def rowBad1 : Row :=
  [("Matric Number", "A1"), ("Last Name", "L"), ("First Name", "F"), ("Gender", "Unknown"),
   ("DoB", "1995-05-15"), ("Year Of Entry", "2023"), ("Department", "CS")]

/-- A second invalid-gender row with the same identifier A1. -/
def rowBad2 : Row :=
  [("Matric Number", "A1"), ("Last Name", "M"), ("First Name", "G"), ("Gender", "Unknown"),
   ("DoB", "1995-05-15"), ("Year Of Entry", "2023"), ("Department", "CS")]

/-- A row with no Matric Number column at all. -/
def rowNoMat : Row := [("Last Name", "L"), ("First Name", "F")]

/-- A row whose Matric Number cell is the empty string. -/
def rowBlankMat : Row := [("Matric Number", ""), ("Last Name", "L"), ("First Name", "F")]

/-- The trivial locale-parse oracle that rejects everything. -/
def lp0 : String → Option String := fun _ => none

/-- The LGA table holding one row whose state identifier is 0. -/
def lgas0 : List LgaRow := [LgaRow.mk 7 "akoko" 0]

/-- A fully populated stored record with matric number A1. -/
def exRec : DbRecord :=
  { applicantNo := "X9", applicant_no := "X9", matric_no := "A1", lastName := "Old",
    firstName := "O", gender := "Male", date_of_birth := "1990-01-01",
    emailAddress := some "e@x.com", studyMode := some "FULL_PROGRAMME",
    password := some "hh", stud_email := some "e@x.com" }

/-- One never-completed registry job created at time 0. -/
def staleJobs : List RegJob := [RegJob.mk "j1" 0 none]

/-- The canonical record obtained by transforming `row1` against a store
holding `exRec` (the candidate applicant number AP0 is free). -/
def recT : CanonRecord :=
  { applicantNo := "AP0", lastName := "Doe", firstName := "John", middleName := none,
    gender := "Male", date_of_birth := "1995-05-15", maritalStatus := 1,
    maritalIsDefault := true, religion := none, phoneNo := none, emailAddress := none,
    application_session := 1, course_of_study := 1, country := none,
    studyMode := "FULL_PROGRAMME", password := "hDoe", profession := none,
    lga_origin := none, lgaUsedFallback := false, matric_no := "A1", stud_email := none }

/-- `initState` over a store already holding the populated record. -/
def stateWithExRec : ProcState := { initState with db := [exRec] }

/-! ## Theorems -/

/-! ### Shared helper lemmas -/

/-- A value that is non-blank under the JS trim test is also non-blank
under the SQL CASE test (whose blank set is only NULL, the empty string
and the single space). -/
theorem sqlBlank_eq_false_of_jsBlank_eq_false {v : Option String} (h : jsBlank v = false) :
    sqlBlank v = false := by
  cases v with
  | none => simp [jsBlank] at h
  | some s =>
    simp only [jsBlank] at h
    simp only [sqlBlank, Bool.or_eq_false_iff]
    constructor
    · by_contra hne
      rw [Bool.not_eq_false, beq_iff_eq] at hne
      subst hne
      exact absurd h (by decide)
    · by_contra hne
      rw [Bool.not_eq_false, beq_iff_eq] at hne
      subst hne
      exact absurd h (by decide)

/-- When every mergeable field of the existing record is populated, the
merge issues no statement and reports that no write occurred. -/
theorem mergeExisting_noop (env : Env) (rec : CanonRecord) (ex : DbRecord)
    (h1 : jsBlank ex.emailAddress = false) (h2 : jsBlank ex.studyMode = false)
    (h3 : jsBlank ex.password = false) (h4 : jsBlank ex.stud_email = false) :
    mergeExisting env rec ex = (false, ex) := by
  unfold mergeExisting
  simp [h1, h2, h3, h4]

/-- The merge never changes a mergeable field whose stored value is
non-blank. -/
theorem mergeExisting_preserves (env : Env) (rec : CanonRecord) (ex : DbRecord) :
    (jsBlank ex.emailAddress = false →
      ((mergeExisting env rec ex).2).emailAddress = ex.emailAddress) ∧
    (jsBlank ex.studyMode = false →
      ((mergeExisting env rec ex).2).studyMode = ex.studyMode) ∧
    (jsBlank ex.password = false →
      ((mergeExisting env rec ex).2).password = ex.password) ∧
    (jsBlank ex.stud_email = false →
      ((mergeExisting env rec ex).2).stud_email = ex.stud_email) := by
  refine ⟨fun h => ?_, fun h => ?_, fun h => ?_, fun h => ?_⟩ <;>
    (simp only [mergeExisting]; split)
  · rfl
  · simp [sqlBlank_eq_false_of_jsBlank_eq_false h]
  · rfl
  · simp [sqlBlank_eq_false_of_jsBlank_eq_false h]
  · rfl
  · simp [sqlBlank_eq_false_of_jsBlank_eq_false h]
  · rfl
  · simp [h]

/-- The upsert's existence check walks the store in order; when every row
before `ex` fails both identifier matches and `ex` matches, the result is
exactly the merge of `ex` in place. -/
theorem upsertRecord_existing (env : Env) (rec : CanonRecord) :
    ∀ (pre : List DbRecord) (ex : DbRecord) (post : List DbRecord),
    (∀ r ∈ pre, (r.applicantNo == rec.applicantNo || r.matric_no == rec.matric_no) = false) →
    (ex.applicantNo == rec.applicantNo || ex.matric_no == rec.matric_no) = true →
    upsertRecord env rec (pre ++ ex :: post) =
      ((mergeExisting env rec ex).1, pre ++ (mergeExisting env rec ex).2 :: post) := by
  intro pre
  induction pre with
  | nil =>
    intro ex post _ hex
    simp only [List.nil_append, upsertRecord, hex, if_true]
  | cons a as ih =>
    intro ex post hpre hex
    have ha := hpre a (by simp)
    simp only [List.cons_append, upsertRecord, ha, Bool.false_eq_true, if_false,
      List.append_eq]
    rw [ih ex post (fun r hr => hpre r (by simp [hr])) hex]

/-- With no `cancel()` call the cooperative checkpoint is a no-op. -/
theorem checkCancel_none (cfg : Config) (st : ProcState) (h : cfg.cancelAt = none) :
    checkCancel cfg st = (st, false) := by
  simp [checkCancel, cancelledAt, h]

/-- Every branch of the per-row body advances `processedRecords` by one. -/
theorem rowBody_processed (env : Env) (cfg : Config) (st : ProcState) (rn : Row × Nat) :
    (rowBody env cfg st rn).processed = st.processed + 1 := by
  simp only [rowBody]
  repeat' split
  all_goals rfl

/-- The per-row body calls the upserter at most once. -/
theorem rowBody_upsertCalls_le (env : Env) (cfg : Config) (st : ProcState) (rn : Row × Nat) :
    (rowBody env cfg st rn).upsertCalls ≤ st.upsertCalls + 1 := by
  simp only [rowBody]
  repeat' split
  all_goals simp

/-- Skipping a batch-local duplicate increments only the processed
counter (the `continue` bypasses even the per-row progress update). -/
theorem rowBody_skip (env : Env) (cfg : Config) (st : ProcState) (rn : Row × Nat)
    (h : st.seen.contains (jsKey rn.1) = true) :
    rowBody env cfg st rn = { st with processed := st.processed + 1 } := by
  simp only [rowBody, h, if_true]

/-- A fresh key is recorded in the batch-local set before the row is
attempted. -/
theorem rowBody_seen_eq (env : Env) (cfg : Config) (st : ProcState) (rn : Row × Nat)
    (h : st.seen.contains (jsKey rn.1) = false) :
    (rowBody env cfg st rn).seen = jsKey rn.1 :: st.seen := by
  simp only [rowBody, h, Bool.false_eq_true, if_false]
  repeat' split
  all_goals rfl

/-- Projections of the per-row body when transformation fails: the row is
routed to the sink, the failure counter moves, nothing touches the store. -/
theorem rowBody_error_projs (env : Env) (cfg : Config) (st : ProcState) (rn : Row × Nat)
    (msg : String)
    (hseen : st.seen.contains (jsKey rn.1) = false)
    (htr : transformRecord env st.db st.genCounter rn.1 = .error msg) :
    (rowBody env cfg st rn).failed = st.failed + 1 ∧
    (rowBody env cfg st rn).artifact = st.artifact ++ [FailedRecord.mk rn.1 msg rn.2] ∧
    (rowBody env cfg st rn).processed = st.processed + 1 ∧
    (rowBody env cfg st rn).inserted = st.inserted ∧
    (rowBody env cfg st rn).upsertCalls = st.upsertCalls ∧
    (rowBody env cfg st rn).db = st.db := by
  simp only [rowBody, hseen, Bool.false_eq_true, if_false]
  rw [htr]
  by_cases ht : 0 < st.totalRecords <;> simp [ht]

/-- A blank or missing external identifier fails the very first required-
field check. -/
theorem transform_error_blank_matric (env : Env) (db : List DbRecord) (gc : Nat) (row : Row)
    (h : jsBlank (getField row "Matric Number") = true) :
    transformRecord env db gc row = .error "Missing required field: Matric Number" := by
  unfold transformRecord
  have hf : firstMissingRequired row = some "Matric Number" := by
    unfold firstMissingRequired requiredFieldNames
    rw [List.find?_cons_of_pos]
    exact h
  rw [hf]
  rfl

/-- Processing a two-row batch whose second row repeats the first row's
key (no cancellation): the second row only bumps the processed counter
and the clock. -/
theorem runRows_pair_skip (env : Env) (cfg : Config) (st : ProcState)
    (r1 r2 : Row) (n1 n2 : Nat)
    (hc : cfg.cancelAt = none)
    (hkey : jsKey r1 = jsKey r2)
    (hseen : st.seen.contains (jsKey r1) = false) :
    runRows env cfg st [(r1, n1), (r2, n2)] =
      { rowBody env cfg (tick st) (r1, n1) with
        processed := (rowBody env cfg (tick st) (r1, n1)).processed + 1
        clock := (rowBody env cfg (tick st) (r1, n1)).clock + 1 } := by
  have h1 := checkCancel_none cfg st hc
  simp only [runRows, h1, Bool.false_eq_true, if_false]
  have h2 := checkCancel_none cfg (rowBody env cfg (tick st) (r1, n1)) hc
  simp only [runRows, h2, Bool.false_eq_true, if_false]
  have hseen' : (tick (rowBody env cfg (tick st) (r1, n1))).seen.contains (jsKey r2) = true := by
    have : (tick st).seen.contains (jsKey (r1, n1).1) = false := hseen
    show (rowBody env cfg (tick st) (r1, n1)).seen.contains (jsKey r2) = true
    rw [rowBody_seen_eq env cfg (tick st) (r1, n1) this]
    simp [List.contains, hkey]
  rw [rowBody_skip env cfg _ (r2, n2) hseen']
  rfl

/-- One parse step while the header check keeps failing: the promise is
rejected (keeping the first rejection) and nothing else observable
changes. -/
theorem parseStep_reject (cfg : Config) (headers : List String) (st : ProcState) (row : Row)
    (hc : cfg.cancelAt = none) (hh : st.headerProcessed = false)
    (hm : missingHeaders headers ≠ []) :
    parseStep cfg headers st row =
      { st with
        clock := st.clock + 1
        rowNumber := st.rowNumber + 1
        rejected := some (st.rejected.getD
          ("Missing required CSV headers: " ++ joinSep ", " (missingHeaders headers))) } := by
  simp only [parseStep, checkCancel_none cfg st hc, Bool.false_eq_true, if_false, tick, hh,
    Bool.not_false, if_true]
  cases hME : missingHeaders headers with
  | nil => exact absurd hME hm
  | cons m ms =>
    cases hr : st.rejected <;> simp [hr]

/-- While the header check fails (and absent cancellation), the whole
parse phase only advances the clock and row number and latches the first
rejection; no row ever reaches the batch. -/
theorem parse_fold_reject (cfg : Config) (headers : List String)
    (hm : missingHeaders headers ≠ []) (hc : cfg.cancelAt = none) :
    ∀ (rows : List Row) (st : ProcState), st.headerProcessed = false → rows ≠ [] →
      rows.foldl (parseStep cfg headers) st =
        { st with
          clock := st.clock + rows.length
          rowNumber := st.rowNumber + rows.length
          rejected := some (st.rejected.getD
            ("Missing required CSV headers: " ++ joinSep ", " (missingHeaders headers))) } := by
  intro rows
  induction rows with
  | nil => intro st _ h; exact absurd rfl h
  | cons r rest ih =>
    intro st hh _
    rw [List.foldl_cons, parseStep_reject cfg headers st r hc hh hm]
    by_cases hrest : rest = []
    · subst hrest; simp
    · rw [ih ({ st with
          clock := st.clock + 1
          rowNumber := st.rowNumber + 1
          rejected := some (st.rejected.getD
            ("Missing required CSV headers: " ++ joinSep ", " (missingHeaders headers))) })
        hh hrest]
      simp only [ProcState.mk.injEq, List.length_cons, Option.getD_some, and_true, true_and]
      constructor <;> omega

/-- The state entering the parse phase: fresh counters, no batch, no
rejection, an empty store, header validation still pending. -/
theorem preParseState_projs (cfg : Config) (rows : List Row) :
    (preParseState cfg rows).headerProcessed = false ∧
    (preParseState cfg rows).batch = [] ∧
    (preParseState cfg rows).rejected = none ∧
    (preParseState cfg rows).processed = 0 ∧
    (preParseState cfg rows).transformCalls = 0 ∧
    (preParseState cfg rows).upsertCalls = 0 ∧
    (preParseState cfg rows).inserted = 0 ∧
    (preParseState cfg rows).failed = 0 ∧
    (preParseState cfg rows).db = [] := by
  simp only [preParseState, emit, initState]
  split <;> exact ⟨rfl, rfl, rfl, rfl, rfl, rfl, rfl, rfl, rfl⟩

/-- The finalization latches the completion flag, clamps progress,
stamps the end time, composes the message from the flag and counters,
emits its snapshot last, and changes nothing else observable. -/
theorem finishRun_projs (cfg : Config) (st : ProcState) :
    (finishRun cfg st).rejected = st.rejected ∧
    (finishRun cfg st).isComplete = true ∧
    (finishRun cfg st).progressPct = 100 ∧
    (finishRun cfg st).hasEndTime = true ∧
    (finishRun cfg st).clock = st.clock ∧
    (finishRun cfg st).processed = st.processed ∧
    (finishRun cfg st).inserted = st.inserted ∧
    (finishRun cfg st).failed = st.failed ∧
    (finishRun cfg st).db = st.db ∧
    (finishRun cfg st).transformCalls = st.transformCalls ∧
    (finishRun cfg st).upsertCalls = st.upsertCalls ∧
    (finishRun cfg st).message =
      (if cancelledAt cfg.cancelAt st.clock then "Processing cancelled"
       else
         "Processing complete. " ++ toString st.inserted ++
           " records updated/inserted, " ++ toString st.failed ++ " failed.") ∧
    (finishRun cfg st).trace.getLast? = some (snap (finishRun cfg st)) := by
  simp only [finishRun, emit, snap]
  split <;> simp

/-- The per-row body never touches the promise's settlement. -/
theorem rowBody_rejected (env : Env) (cfg : Config) (st : ProcState) (rn : Row × Nat) :
    (rowBody env cfg st rn).rejected = st.rejected := by
  simp only [rowBody]
  repeat' split
  all_goals rfl

/-- Neither does the cooperative checkpoint. -/
theorem checkCancel_fst_rejected (cfg : Config) (st : ProcState) :
    (checkCancel cfg st).1.rejected = st.rejected := by
  simp only [checkCancel, emit]
  repeat' split
  all_goals rfl

/-- Nor the row loop. -/
theorem runRows_rejected (env : Env) (cfg : Config) :
    ∀ (l : List (Row × Nat)) (st : ProcState), (runRows env cfg st l).rejected = st.rejected := by
  intro l
  induction l with
  | nil => intro st; rfl
  | cons rn rest ih =>
    intro st
    simp only [runRows]
    have hfst := checkCancel_fst_rejected cfg st
    rcases hcc : checkCancel cfg st with ⟨st', c⟩
    rw [hcc] at hfst
    cases c with
    | true => simpa [tick] using hfst
    | false =>
      simp only [Bool.false_eq_true, if_false]
      rw [ih, rowBody_rejected]
      simpa [tick] using hfst

/-- Nor a batch. -/
theorem runBatch_rejected (env : Env) (cfg : Config) (st : ProcState) (c : List (Row × Nat)) :
    (runBatch env cfg st c).rejected = st.rejected := by
  simp only [runBatch, emit]
  rw [runRows_rejected]

/-- Nor the batch loop. -/
theorem runChunks_rejected (env : Env) (cfg : Config) :
    ∀ (l : List (List (Row × Nat))) (st : ProcState),
      (runChunks env cfg st l).rejected = st.rejected := by
  intro l
  induction l with
  | nil => intro st; rfl
  | cons c cs ih =>
    intro st
    simp only [runChunks]
    split
    · rw [ih, runBatch_rejected]
    · exact ih st

/-- With all required headers present a parse step leaves the settlement
alone. -/
theorem parseStep_rejected_ok (cfg : Config) (headers : List String) (st : ProcState) (row : Row)
    (hh : missingHeaders headers = []) :
    (parseStep cfg headers st row).rejected = st.rejected := by
  simp only [parseStep]
  have hfst := checkCancel_fst_rejected cfg st
  rcases hcc : checkCancel cfg st with ⟨st', c⟩
  rw [hcc] at hfst
  cases c with
  | true => simpa [tick] using hfst
  | false =>
    simp only [Bool.false_eq_true, if_false, tick]
    split
    · rw [hh]
      simpa [emit] using hfst
    · simpa using hfst

/-- With all required headers present the whole parse phase leaves the
settlement alone. -/
theorem parse_fold_ok_rejected (cfg : Config) (headers : List String)
    (hh : missingHeaders headers = []) :
    ∀ (rows : List Row) (st : ProcState),
      (rows.foldl (parseStep cfg headers) st).rejected = st.rejected := by
  intro rows
  induction rows with
  | nil => intro st; rfl
  | cons r rest ih =>
    intro st
    rw [List.foldl_cons, ih, parseStep_rejected_ok cfg headers st r hh]

/-- C2: for every upsert that finds an existing record, a mergeable field
(contact email, study mode, credential hash, identifier-mapping contact
echo) whose stored value is non-blank is never changed; and when all four
are already non-blank the upsert reports "no write occurred", leaves the
store untouched, and — in the batch loop — leaves `insertedRecords`
unchanged. -/
theorem c2_merge_only_blank :
    (∀ (env : Env) (rec : CanonRecord) (pre : List DbRecord) (ex : DbRecord)
       (post : List DbRecord),
      (∀ r ∈ pre, (r.applicantNo == rec.applicantNo || r.matric_no == rec.matric_no) = false) →
      (ex.applicantNo == rec.applicantNo || ex.matric_no == rec.matric_no) = true →
      (upsertRecord env rec (pre ++ ex :: post) =
        ((mergeExisting env rec ex).1, pre ++ (mergeExisting env rec ex).2 :: post) ∧
      (jsBlank ex.emailAddress = false →
        ((mergeExisting env rec ex).2).emailAddress = ex.emailAddress) ∧
      (jsBlank ex.studyMode = false →
        ((mergeExisting env rec ex).2).studyMode = ex.studyMode) ∧
      (jsBlank ex.password = false →
        ((mergeExisting env rec ex).2).password = ex.password) ∧
      (jsBlank ex.stud_email = false →
        ((mergeExisting env rec ex).2).stud_email = ex.stud_email) ∧
      (jsBlank ex.emailAddress = false → jsBlank ex.studyMode = false →
        jsBlank ex.password = false → jsBlank ex.stud_email = false →
        upsertRecord env rec (pre ++ ex :: post) = (false, pre ++ ex :: post)))) ∧
    (∀ (env : Env) (cfg : Config) (st : ProcState) (row : Row) (n : Nat)
       (rec : CanonRecord) (gc : Nat),
      cfg.dryRun = false →
      transformRecord env st.db st.genCounter row = .ok (rec, gc) →
      upsertRecord env rec st.db = (false, st.db) →
      (rowBody env cfg st (row, n)).inserted = st.inserted) := by
  constructor
  · intro env rec pre ex post hpre hex
    obtain ⟨p1, p2, p3, p4⟩ := mergeExisting_preserves env rec ex
    refine ⟨upsertRecord_existing env rec pre ex post hpre hex, p1, p2, p3, p4,
      fun h1 h2 h3 h4 => ?_⟩
    rw [upsertRecord_existing env rec pre ex post hpre hex,
      mergeExisting_noop env rec ex h1 h2 h3 h4]
  · intro env cfg st row n rec gc hdry htr hup
    simp only [rowBody]
    split
    · rfl
    · rw [htr, hdry]
      simp only [Bool.false_eq_true, if_false]
      rw [hup]
      by_cases ht : 0 < st.totalRecords <;> simp [ht]

/-- C2 (witness): against a store holding only the fully populated
`exRec`, upserting the transformed `row1` issues no write and leaves the
store — and, inside the batch loop, the insertion counter — unchanged. -/
theorem c2_merge_only_blank_witness :
    upsertRecord env1 recT ([] ++ exRec :: []) = (false, [] ++ exRec :: []) ∧
    (rowBody env1 cfg1 stateWithExRec (row1, 2)).inserted = stateWithExRec.inserted := by
  constructor
  · exact (c2_merge_only_blank.1 env1 recT [] exRec []
      (by intro r hr; cases hr) (by decide)).2.2.2.2.2
      (by decide) (by decide) (by decide) (by decide)
  · exact c2_merge_only_blank.2 env1 cfg1 stateWithExRec row1 2 recT 1 rfl
      (by rfl) (by decide)

/-- C3 (counterexample): a batch of two rows sharing the identifier A1,
both with an invalid gender — the first fails validation, the second is
skipped as a duplicate — performs *zero* writes (no upsert call, nothing
inserted, the store stays empty), while the claim asserts exactly one
write occurs; both rows are still counted as processed. -/
theorem c3_counterexample :
    jsKey rowBad1 = jsKey rowBad2 ∧
    (runRows env1 cfg1 initState [(rowBad1, 2), (rowBad2, 3)]).upsertCalls = 0 ∧
    (runRows env1 cfg1 initState [(rowBad1, 2), (rowBad2, 3)]).inserted = 0 ∧
    (runRows env1 cfg1 initState [(rowBad1, 2), (rowBad2, 3)]).db = [] ∧
    (runRows env1 cfg1 initState [(rowBad1, 2), (rowBad2, 3)]).processed = 2 := by
  decide

/-- C3 (amended): in a two-row batch whose rows share a trimmed external
identifier (and absent cancellation), the later row is skipped before any
transformation or upsert: it only increments `processedRecords`, so both
rows are counted as processed, at most one write occurs for the pair
(exactly one only when the first row's own processing performs a storage
write), and the skipped row changes neither `insertedRecords` nor
`failedRecordsCount` nor the store nor the failure artifact. -/
theorem c3_amended_duplicate_suppression (env : Env) (cfg : Config) (st : ProcState)
    (r1 r2 : Row) (n1 n2 : Nat)
    (hc : cfg.cancelAt = none)
    (hkey : jsKey r1 = jsKey r2)
    (hseen : st.seen.contains (jsKey r1) = false) :
    runRows env cfg st [(r1, n1), (r2, n2)] =
      { rowBody env cfg (tick st) (r1, n1) with
        processed := (rowBody env cfg (tick st) (r1, n1)).processed + 1
        clock := (rowBody env cfg (tick st) (r1, n1)).clock + 1 } ∧
    (rowBody env cfg (tick st) (r1, n1)).processed = st.processed + 1 ∧
    (rowBody env cfg (tick st) (r1, n1)).upsertCalls ≤ st.upsertCalls + 1 := by
  refine ⟨runRows_pair_skip env cfg st r1 r2 n1 n2 hc hkey hseen, ?_, ?_⟩
  · exact rowBody_processed env cfg (tick st) (r1, n1)
  · exact rowBody_upsertCalls_le env cfg (tick st) (r1, n1)

/-- C3 (witness): the amended duplicate-suppression statement applied to
the example scenario's first two rows against a fresh job state. -/
theorem c3_amended_witness :
    runRows env1 cfg1 initState [(row1, 2), (row2, 3)] =
      { rowBody env1 cfg1 (tick initState) (row1, 2) with
        processed := (rowBody env1 cfg1 (tick initState) (row1, 2)).processed + 1
        clock := (rowBody env1 cfg1 (tick initState) (row1, 2)).clock + 1 } ∧
    (rowBody env1 cfg1 (tick initState) (row1, 2)).processed = initState.processed + 1 ∧
    (rowBody env1 cfg1 (tick initState) (row1, 2)).upsertCalls ≤ initState.upsertCalls + 1 :=
  c3_amended_duplicate_suppression env1 cfg1 initState row1 row2 2 3 rfl
    (by decide) (by decide)

/-- C9 (counterexample): a batch holding one row with *no* Matric Number
column and one row with a *blank* Matric Number cell routes *both* rows to
the failed-record sink — `undefined` and the trimmed empty string are
distinct keys in the batch-local duplicate set — while the claim says
every blank-or-missing row after the first is suppressed as a duplicate. -/
theorem c9_counterexample :
    jsBlank (getField rowNoMat "Matric Number") = true ∧
    jsBlank (getField rowBlankMat "Matric Number") = true ∧
    jsKey rowNoMat ≠ jsKey rowBlankMat ∧
    (runRows env1 cfg1 initState [(rowNoMat, 2), (rowBlankMat, 3)]).failed = 2 ∧
    (runRows env1 cfg1 initState [(rowNoMat, 2), (rowBlankMat, 3)]).artifact.length = 2 := by
  decide

/-- C9 (amended): when two rows of a batch have blank-or-missing Matric
Numbers *with the same key* (both missing, or both trimming to the empty
string — a missing field and a blank field are distinct keys), only the
first is routed to the failed-record sink with the missing-required-field
error; the later one is suppressed as a batch-local duplicate and counts
only toward `processedRecords`. -/
theorem c9_amended_blank_identifier (env : Env) (cfg : Config) (st : ProcState)
    (r1 r2 : Row) (n1 n2 : Nat)
    (hc : cfg.cancelAt = none)
    (hblank : jsBlank (getField r1 "Matric Number") = true)
    (hkey : jsKey r1 = jsKey r2)
    (hseen : st.seen.contains (jsKey r1) = false) :
    (runRows env cfg st [(r1, n1), (r2, n2)]).failed = st.failed + 1 ∧
    (runRows env cfg st [(r1, n1), (r2, n2)]).artifact =
      st.artifact ++ [FailedRecord.mk r1 "Missing required field: Matric Number" n1] ∧
    (runRows env cfg st [(r1, n1), (r2, n2)]).processed = st.processed + 2 ∧
    (runRows env cfg st [(r1, n1), (r2, n2)]).inserted = st.inserted ∧
    (runRows env cfg st [(r1, n1), (r2, n2)]).upsertCalls = st.upsertCalls ∧
    (runRows env cfg st [(r1, n1), (r2, n2)]).db = st.db := by
  rw [runRows_pair_skip env cfg st r1 r2 n1 n2 hc hkey hseen]
  have hseen' : (tick st).seen.contains (jsKey (r1, n1).1) = false := hseen
  have htr : transformRecord env (tick st).db (tick st).genCounter (r1, n1).1 =
      .error "Missing required field: Matric Number" :=
    transform_error_blank_matric env (tick st).db (tick st).genCounter r1 hblank
  obtain ⟨e1, e2, e3, e4, e5, e6⟩ :=
    rowBody_error_projs env cfg (tick st) (r1, n1) "Missing required field: Matric Number"
      hseen' htr
  refine ⟨e1, e2, ?_, e4, e5, e6⟩
  show (rowBody env cfg (tick st) (r1, n1)).processed + 1 = st.processed + 2
  rw [e3]
  rfl

/-- C9 (witness): the amended statement applied to two rows whose Matric
Number cells are both empty strings. -/
theorem c9_amended_witness :
    (runRows env1 cfg1 initState [(rowBlankMat, 2), (rowBlankMat, 3)]).failed =
      initState.failed + 1 ∧
    (runRows env1 cfg1 initState [(rowBlankMat, 2), (rowBlankMat, 3)]).artifact =
      initState.artifact ++
        [FailedRecord.mk rowBlankMat "Missing required field: Matric Number" 2] ∧
    (runRows env1 cfg1 initState [(rowBlankMat, 2), (rowBlankMat, 3)]).processed =
      initState.processed + 2 ∧
    (runRows env1 cfg1 initState [(rowBlankMat, 2), (rowBlankMat, 3)]).inserted =
      initState.inserted ∧
    (runRows env1 cfg1 initState [(rowBlankMat, 2), (rowBlankMat, 3)]).upsertCalls =
      initState.upsertCalls ∧
    (runRows env1 cfg1 initState [(rowBlankMat, 2), (rowBlankMat, 3)]).db = initState.db :=
  c9_amended_blank_identifier env1 cfg1 initState rowBlankMat rowBlankMat 2 3 rfl
    (by decide) rfl (by decide)

/-- C1: the spec's example scenario — 3 rows, a duplicate identifier and
an invalid third row — is expected to end with `processedRecords = 3`,
`insertedRecords = 1`, `failedRecordsCount = 1`, and the failed artifact
holding exactly the third row.  Evaluating the code's model: because the
header-validation step consumes (and drops) the first *data* row — with
`header: true` Papa never delivers the header line to `step`, contrary to
the code's "Skip header row from processing" comment — the run ends with
`processedRecords = 2`.  The insertion count, failure count and artifact
do match the claim. -/
theorem c1_scenario_eval :
    (scenario1.1.isOk = true ∧
     scenario1.2.inserted = 1 ∧
     scenario1.2.failed = 1 ∧
     scenario1.2.artifact = [FailedRecord.mk row3 "Invalid gender: Unknown" 3]) ∧
    scenario1.2.processed = 2 ∧ scenario1.2.processed ≠ 3 := by
  decide

/-- C4 (counterexample): a file whose header row lacks `DoB` but which
contains *no data rows* is not rejected — with `header: true` the
validation only runs inside the first `step` event, which never fires —
and `processFile` resolves successfully with a completed job. -/
theorem c4_counterexample :
    missingHeaders headersNoDob ≠ [] ∧
    (processFile env1 cfg1 headersNoDob []).1.isOk = true ∧
    (processFile env1 cfg1 headersNoDob []).2.isComplete = true ∧
    (processFile env1 cfg1 headersNoDob []).2.processed = 0 := by
  decide

/-- C4 (amended): provided the file contains at least one data row (and
the job is not cancelled before the first row event), a missing required
header makes `processFile` reject with an error naming the missing
headers, before any row is processed: the processed counter stays 0, no
transformation or upsert ever runs, and the store is untouched. -/
theorem c4_amended_missing_headers (env : Env) (cfg : Config) (headers : List String)
    (rows : List Row)
    (hm : missingHeaders headers ≠ []) (hrows : rows ≠ []) (hc : cfg.cancelAt = none) :
    (processFile env cfg headers rows).1 =
      .error ("Missing required CSV headers: " ++ joinSep ", " (missingHeaders headers)) ∧
    (processFile env cfg headers rows).2.processed = 0 ∧
    (processFile env cfg headers rows).2.transformCalls = 0 ∧
    (processFile env cfg headers rows).2.upsertCalls = 0 ∧
    (processFile env cfg headers rows).2.inserted = 0 ∧
    (processFile env cfg headers rows).2.failed = 0 ∧
    (processFile env cfg headers rows).2.db = [] := by
  obtain ⟨p1, p2, p3, p4, p5, p6, p7, p8, p9⟩ := preParseState_projs cfg rows
  have hfold := parse_fold_reject cfg headers hm hc rows (preParseState cfg rows) p1 hrows
  obtain ⟨f1, _, _, _, _, f6, f7, f8, f9, f10, f11, _, _⟩ :=
    finishRun_projs cfg
      (runChunks env cfg (rows.foldl (parseStep cfg headers) (preParseState cfg rows))
        (makeChunks cfg.batchSize
          ((rows.foldl (parseStep cfg headers) (preParseState cfg rows)).batch)))
  have hbatch : (rows.foldl (parseStep cfg headers) (preParseState cfg rows)).batch = [] := by
    rw [hfold]
    exact p2
  have hchunks :
      runChunks env cfg (rows.foldl (parseStep cfg headers) (preParseState cfg rows))
        (makeChunks cfg.batchSize
          ((rows.foldl (parseStep cfg headers) (preParseState cfg rows)).batch)) =
      rows.foldl (parseStep cfg headers) (preParseState cfg rows) := by
    rw [hbatch]
    rfl
  simp only [processFile]
  rw [hchunks] at f1 f6 f7 f8 f9 f10 f11 ⊢
  have hrej : (rows.foldl (parseStep cfg headers) (preParseState cfg rows)).rejected =
      some ("Missing required CSV headers: " ++ joinSep ", " (missingHeaders headers)) := by
    rw [hfold]
    show some ((preParseState cfg rows).rejected.getD _) = _
    rw [p3]
    rfl
  refine ⟨?_, ?_, ?_, ?_, ?_, ?_, ?_⟩
  · rw [f1, hrej]
  · rw [f6, hfold]; exact p4
  · rw [f10, hfold]; exact p5
  · rw [f11, hfold]; exact p6
  · rw [f7, hfold]; exact p7
  · rw [f8, hfold]; exact p8
  · rw [f9, hfold]; exact p9

/-- C4 (witness): the amended statement applied to a one-row file whose
headers lack `DoB`. -/
theorem c4_amended_witness :
    (processFile env1 cfg1 headersNoDob [row1]).1 =
      .error ("Missing required CSV headers: " ++ joinSep ", " (missingHeaders headersNoDob)) ∧
    (processFile env1 cfg1 headersNoDob [row1]).2.processed = 0 ∧
    (processFile env1 cfg1 headersNoDob [row1]).2.transformCalls = 0 ∧
    (processFile env1 cfg1 headersNoDob [row1]).2.upsertCalls = 0 ∧
    (processFile env1 cfg1 headersNoDob [row1]).2.inserted = 0 ∧
    (processFile env1 cfg1 headersNoDob [row1]).2.failed = 0 ∧
    (processFile env1 cfg1 headersNoDob [row1]).2.db = [] :=
  c4_amended_missing_headers env1 cfg1 headersNoDob [row1] (by decide) (by decide) rfl

/-- C10: once `cancel()` has been observed, a run that reaches its end of
input still resolves: the final Progress snapshot latches
`isComplete = true`, clamps progress to 100, stamps an end time, and only
its message — 'Processing cancelled' — distinguishes it from a
successful completion. -/
theorem c10_cancelled_completion (env : Env) (cfg : Config) (headers : List String)
    (rows : List Row)
    (hh : missingHeaders headers = [])
    (hcan : cancelledAt cfg.cancelAt ((processFile env cfg headers rows).2.clock) = true) :
    (processFile env cfg headers rows).1 = .ok () ∧
    (processFile env cfg headers rows).2.isComplete = true ∧
    (processFile env cfg headers rows).2.progressPct = 100 ∧
    (processFile env cfg headers rows).2.hasEndTime = true ∧
    (processFile env cfg headers rows).2.message = "Processing cancelled" ∧
    (processFile env cfg headers rows).2.trace.getLast? =
      some (snap ((processFile env cfg headers rows).2)) := by
  obtain ⟨f1, f2, f3, f4, f5, _, _, _, _, _, _, fmsg, flast⟩ :=
    finishRun_projs cfg
      (runChunks env cfg (rows.foldl (parseStep cfg headers) (preParseState cfg rows))
        (makeChunks cfg.batchSize
          ((rows.foldl (parseStep cfg headers) (preParseState cfg rows)).batch)))
  have hrej :
      (runChunks env cfg (rows.foldl (parseStep cfg headers) (preParseState cfg rows))
        (makeChunks cfg.batchSize
          ((rows.foldl (parseStep cfg headers) (preParseState cfg rows)).batch))).rejected =
      none := by
    rw [runChunks_rejected, parse_fold_ok_rejected cfg headers hh]
    exact (preParseState_projs cfg rows).2.2.1
  simp only [processFile] at hcan ⊢
  rw [f5] at hcan
  refine ⟨?_, f2, f3, f4, ?_, flast⟩
  · rw [f1, hrej]
  · rw [fmsg, hcan]
    rfl

/-- C10 (witness): a one-row valid-header run with `cancel()` observed
from the very first checkpoint resolves as a cancelled completion. -/
theorem c10_cancelled_completion_witness :
    (processFile env1 cfgC headers7 [row1]).1 = .ok () ∧
    (processFile env1 cfgC headers7 [row1]).2.isComplete = true ∧
    (processFile env1 cfgC headers7 [row1]).2.progressPct = 100 ∧
    (processFile env1 cfgC headers7 [row1]).2.hasEndTime = true ∧
    (processFile env1 cfgC headers7 [row1]).2.message = "Processing cancelled" ∧
    (processFile env1 cfgC headers7 [row1]).2.trace.getLast? =
      some (snap ((processFile env1 cfgC headers7 [row1]).2)) :=
  c10_cancelled_completion env1 cfgC headers7 [row1] (by decide) (by decide)

/-- C6 (counterexample): on the input "3/4/2023" the code's parser — whose
fourth format destructures day-first like the second and third — returns
2023-04-03, while the claim's month-first reading of the fourth format
would return 2023-03-04. -/
theorem c6_counterexample :
    parseDate lp0 "3/4/2023" = some "2023-04-03" ∧
    specParseDateClaim lp0 "3/4/2023" = some "2023-03-04" ∧
    parseDate lp0 "3/4/2023" ≠ specParseDateClaim lp0 "3/4/2023" := by
  decide

/-- C6 (amended): the parser tries ISO `YYYY-MM-DD`, then `DD-MM-YYYY`,
then `DD/MM/YYYY`, then `D/M/YYYY` with a 1–2 digit *day first*, falling
back to the locale parse; every match is normalized (with civil-calendar
rollover) to `YYYY-MM-DD`, and a string rejected by all of these and by
the locale parse yields no date. -/
theorem c6_amended_parse_order (lp : String → Option String) (s : String) :
    parseDate lp s = specParseDateAmended lp s := by
  unfold parseDate specParseDateAmended
  cases h0 : (s == "") with
  | true => simp only [h0, if_true]
  | false =>
    simp only [h0, Bool.false_eq_true, if_false, firstSome]
    cases h1 : matchYMDdash s with
    | some v => obtain ⟨y, m, d⟩ := v; simp
    | none =>
      simp only [Option.map]
      cases h2 : matchDMYdash s with
      | some v => obtain ⟨d, m, y⟩ := v; simp [swapDMY]
      | none =>
        simp only [Option.map]
        cases h3 : matchDMYslash s with
        | some v => obtain ⟨d, m, y⟩ := v; simp [swapDMY]
        | none =>
          simp only [Option.map]
          cases h4 : matchDM12slash s with
          | some v => obtain ⟨d, m, y⟩ := v; simp [swapDMY]
          | none => simp

/-- C7: a job with no completion timestamp, created 3 hours before the
sweep (past the 2-hour staleness ceiling), is *not* removed by a sweep
pass: the stale branch hands it to `cleanupJob`, whose guard
`job && job.completedAt` refuses to delete a job that never completed —
contradicting both the claim and the code's own "Cleaning up stuck job"
warning. -/
theorem c7_stale_job_survives_sweep :
    (∀ j ∈ staleJobs, j.completedAt = none ∧
      staleJobCeilingMs < 3 * 60 * 60 * 1000 - j.createdAt) ∧
    sweepPass (3 * 60 * 60 * 1000) staleJobs = staleJobs := by
  decide

/-- C8 (counterexample): with the table holding LGA 7 named "akoko" under
state identifier 0, looking up "Akoko" with the state identifier 0
*supplied* returns the fallback-flagged name-only match — the `if
(stateId)` truthiness guard skips the scoped query — whereas the claim
promises an unflagged scoped match. -/
theorem c8_counterexample :
    lookupLga lgas0 "Akoko" (some 0) = (some 7, true) ∧
    specLookupLgaClaim lgas0 "Akoko" (some 0) = (some 7, false) ∧
    lookupLga lgas0 "Akoko" (some 0) ≠ specLookupLgaClaim lgas0 "Akoko" (some 0) := by
  decide

/-- C8 (amended): the LGA lookup is total and follows the claim's decision
order — blank input yields no identifier and no flag; a supplied *nonzero*
state identifier (a zero identifier is falsy in JS and counts as not
supplied) scopes a case-insensitive name-and-state match returned
unflagged; on a scoped miss or without a usable state identifier, a
name-only match anywhere in the table is returned flagged as fallback; a
total miss yields no identifier and no flag. -/
theorem c8_amended_lga_decision_order (lgas : List LgaRow) (n : String) (sid : Option Int) :
    lookupLga lgas n sid = specLookupLgaAmended lgas n sid := by
  unfold lookupLga specLookupLgaAmended
  cases h0 : (jsTrim n == "") with
  | true => simp only [h0, if_true]
  | false =>
    simp only [h0, Bool.false_eq_true, if_false]
    cases sid with
    | none => rfl
    | some s =>
      by_cases hs : s = 0
      · subst hs; simp
      · simp [hs]

/-! ### Trace invariant lemmas -/

/-- Snapshot counter order is reflexive. -/
theorem snapLe_refl (a : Snapshot) : SnapLe a a := ⟨le_rfl, le_rfl, le_rfl⟩

/-- Emitting a snapshot preserves the trace invariant. -/
theorem goodTrace_emit {st : ProcState} (h : GoodTrace st) : GoodTrace (emit st) := by
  obtain ⟨h1, h2, h3, h4⟩ := h
  refine ⟨?_, ?_, ?_, h4⟩
  · show List.Chain' SnapLe (st.trace ++ [snap st])
    rw [List.chain'_append]
    refine ⟨h1, List.chain'_singleton _, ?_⟩
    intro x hx y hy
    simp only [List.head?_cons, Option.mem_def, Option.some.injEq] at hy
    subst hy
    exact h3 x (by simpa using hx)
  · intro s hs
    rcases List.mem_append.mp hs with hmem | hmem
    · exact h2 s hmem
    · simp only [List.mem_singleton] at hmem
      subst hmem
      exact h4
  · intro s hs
    have hlast : (st.trace ++ [snap st]).getLast? = some (snap st) := List.getLast?_concat _
    have : some (snap st) = some s := by
      rw [← hlast]
      exact hs
    injection this with hthis
    subst hthis
    exact snapLe_refl _

/-- A transition that leaves the trace alone, only increases the
counters, and keeps the live progress bounded preserves the invariant. -/
theorem goodTrace_mut {st st' : ProcState} (h : GoodTrace st)
    (htr : st'.trace = st.trace)
    (hp : st.processed ≤ st'.processed) (hi : st.inserted ≤ st'.inserted)
    (hf : st.failed ≤ st'.failed) (hpr : st'.progressPct ≤ 100) :
    GoodTrace st' := by
  obtain ⟨h1, h2, h3, _⟩ := h
  refine ⟨htr ▸ h1, ?_, ?_, hpr⟩
  · intro s hs
    exact h2 s (htr ▸ hs)
  · intro s hs
    rw [htr] at hs
    have hle := h3 s hs
    exact ⟨le_trans hle.1 hp, le_trans hle.2.1 hi, le_trans hle.2.2 hf⟩

/-- Special case: a transition that changes none of the tracked fields. -/
theorem goodTrace_keep {st st' : ProcState} (h : GoodTrace st)
    (htr : st'.trace = st.trace) (hp : st'.processed = st.processed)
    (hi : st'.inserted = st.inserted) (hf : st'.failed = st.failed)
    (hpr : st'.progressPct = st.progressPct) : GoodTrace st' :=
  goodTrace_mut h htr (by rw [hp]) (by rw [hi]) (by rw [hf]) (by rw [hpr]; exact h.2.2.2)

/-- The clock tick preserves the invariant. -/
theorem goodTrace_tick {st : ProcState} (h : GoodTrace st) : GoodTrace (tick st) :=
  goodTrace_keep h rfl rfl rfl rfl rfl

/-- The cooperative checkpoint (with its possible cancel emission)
preserves the invariant. -/
theorem goodTrace_checkCancel (cfg : Config) {st : ProcState} (h : GoodTrace st) :
    GoodTrace (checkCancel cfg st).1 := by
  simp only [checkCancel]
  split
  · split
    · exact h
    · exact goodTrace_emit (goodTrace_keep h rfl rfl rfl rfl rfl)
  · exact h

/-- The recomputed percentage stays below 100 while the processed count
does not exceed the total. -/
theorem progress_le_100 (p : Nat) (t : Int) (ht : 0 < t) (hp : (p : Int) ≤ t) :
    (p : Rat) / (t : Rat) * 100 ≤ 100 := by
  have ht' : (0 : Rat) < (t : Rat) := by exact_mod_cast ht
  have hp' : (p : Rat) ≤ (t : Rat) := by exact_mod_cast hp
  have hdiv : (p : Rat) / (t : Rat) ≤ 1 := (div_le_one ht').mpr hp'
  calc (p : Rat) / (t : Rat) * 100 ≤ 1 * 100 :=
        mul_le_mul_of_nonneg_right hdiv (by norm_num)
    _ = 100 := by norm_num

/-- The per-row body never emits. -/
theorem rowBody_trace (env : Env) (cfg : Config) (st : ProcState) (rn : Row × Nat) :
    (rowBody env cfg st rn).trace = st.trace := by
  simp only [rowBody]
  repeat' split
  all_goals rfl

/-- The per-row body never changes the total. -/
theorem rowBody_total (env : Env) (cfg : Config) (st : ProcState) (rn : Row × Nat) :
    (rowBody env cfg st rn).totalRecords = st.totalRecords := by
  simp only [rowBody]
  repeat' split
  all_goals rfl

/-- The insertion counter never decreases across a row. -/
theorem rowBody_inserted_ge (env : Env) (cfg : Config) (st : ProcState) (rn : Row × Nat) :
    st.inserted ≤ (rowBody env cfg st rn).inserted := by
  simp only [rowBody]
  repeat' split
  all_goals simp

/-- The failure counter never decreases across a row. -/
theorem rowBody_failed_ge (env : Env) (cfg : Config) (st : ProcState) (rn : Row × Nat) :
    st.failed ≤ (rowBody env cfg st rn).failed := by
  simp only [rowBody]
  repeat' split
  all_goals simp

/-- While one more processed row still fits under the total, the per-row
progress update stays at most 100. -/
theorem rowBody_progress_le (env : Env) (cfg : Config) (st : ProcState) (rn : Row × Nat)
    (h100 : st.progressPct ≤ 100)
    (hcap : 0 < st.totalRecords → (st.processed : Int) + 1 ≤ st.totalRecords) :
    (rowBody env cfg st rn).progressPct ≤ 100 := by
  simp only [rowBody]
  split
  · exact h100
  · cases htr : transformRecord env st.db st.genCounter rn.1 with
    | error msg =>
      split
      · exact progress_le_100 (st.processed + 1) st.totalRecords ‹_› (hcap ‹_›)
      · exact h100
    | ok v =>
      obtain ⟨rec, gc⟩ := v
      repeat' split
      all_goals
        first
          | exact h100
          | exact progress_le_100 (st.processed + 1) st.totalRecords ‹_› (hcap ‹_›)

/-- A full invariant step for the per-row body. -/
theorem goodTrace_rowBody (env : Env) (cfg : Config) (st : ProcState) (rn : Row × Nat)
    (h : GoodTrace st)
    (hcap : 0 < st.totalRecords → (st.processed : Int) + 1 ≤ st.totalRecords) :
    GoodTrace (rowBody env cfg st rn) :=
  goodTrace_mut h (rowBody_trace env cfg st rn)
    (by rw [rowBody_processed]; exact Nat.le_succ _)
    (rowBody_inserted_ge env cfg st rn) (rowBody_failed_ge env cfg st rn)
    (rowBody_progress_le env cfg st rn h.2.2.2 hcap)

/-- The checkpoint changes neither the processed counter nor the total. -/
theorem checkCancel_fst_keeps (cfg : Config) (st : ProcState) :
    (checkCancel cfg st).1.processed = st.processed ∧
    (checkCancel cfg st).1.totalRecords = st.totalRecords := by
  simp only [checkCancel, emit]
  repeat' split
  all_goals exact ⟨rfl, rfl⟩

/-- Across the row loop the total is fixed and the processed counter
grows by at most the number of rows. -/
theorem runRows_keeps (env : Env) (cfg : Config) :
    ∀ (l : List (Row × Nat)) (st : ProcState),
      (runRows env cfg st l).totalRecords = st.totalRecords ∧
      (runRows env cfg st l).processed ≤ st.processed + l.length := by
  intro l
  induction l with
  | nil => intro st; exact ⟨rfl, Nat.le_add_right _ _⟩
  | cons rn rest ih =>
    intro st
    simp only [runRows]
    obtain ⟨k1, k2⟩ := checkCancel_fst_keeps cfg st
    rcases hcc : checkCancel cfg st with ⟨st', c⟩
    rw [hcc] at k1 k2
    cases c with
    | true =>
      simp only [if_true]
      constructor
      · exact k2
      · rw [show (tick st').processed = st.processed from k1]
        omega
    | false =>
      simp only [Bool.false_eq_true, if_false]
      obtain ⟨i1, i2⟩ := ih (rowBody env cfg (tick st') rn)
      constructor
      · rw [i1, rowBody_total]
        exact k2
      · calc (runRows env cfg (rowBody env cfg (tick st') rn) rest).processed
            ≤ (rowBody env cfg (tick st') rn).processed + rest.length := i2
          _ = st.processed + 1 + rest.length := by
              rw [rowBody_processed]
              rw [show (tick st').processed = st.processed from k1]
          _ ≤ st.processed + (rn :: rest).length := by simp; omega

/-- The row loop preserves the trace invariant while the remaining rows
still fit under the total. -/
theorem goodTrace_runRows (env : Env) (cfg : Config) :
    ∀ (l : List (Row × Nat)) (st : ProcState), GoodTrace st →
      (0 < st.totalRecords →
        (st.processed : Int) + (l.length : Int) ≤ st.totalRecords) →
      GoodTrace (runRows env cfg st l) := by
  intro l
  induction l with
  | nil => intro st h _; exact h
  | cons rn rest ih =>
    intro st h hcap
    simp only [runRows]
    have hg := goodTrace_checkCancel cfg h
    obtain ⟨k1, k2⟩ := checkCancel_fst_keeps cfg st
    rcases hcc : checkCancel cfg st with ⟨st', c⟩
    rw [hcc] at hg k1 k2
    cases c with
    | true => exact goodTrace_tick hg
    | false =>
      simp only [Bool.false_eq_true, if_false]
      have hg1 : GoodTrace (tick st') := goodTrace_tick hg
      have hcap1 : 0 < (tick st').totalRecords →
          ((tick st').processed : Int) + 1 ≤ (tick st').totalRecords := by
        intro hpos
        rw [show (tick st').totalRecords = st.totalRecords from k2] at hpos ⊢
        rw [show (tick st').processed = st.processed from k1]
        have := hcap hpos
        simp only [List.length_cons] at this
        push_cast at this
        omega
      apply ih
      · exact goodTrace_rowBody env cfg (tick st') rn hg1 hcap1
      · intro hpos
        rw [rowBody_total] at hpos ⊢
        rw [rowBody_processed]
        rw [show (tick st').totalRecords = st.totalRecords from k2] at hpos ⊢
        rw [show (tick st').processed = st.processed from k1]
        have := hcap hpos
        simp only [List.length_cons] at this
        push_cast at this ⊢
        omega

/-- One batch preserves the trace invariant while its rows still fit
under the total. -/
theorem goodTrace_runBatch (env : Env) (cfg : Config) (st : ProcState)
    (c : List (Row × Nat)) (h : GoodTrace st)
    (hcap : 0 < st.totalRecords →
      (st.processed : Int) + (c.length : Int) ≤ st.totalRecords) :
    GoodTrace (runBatch env cfg st c) := by
  unfold runBatch
  apply goodTrace_emit
  have h1 : GoodTrace ({ st with
      message := "Processing batch of " ++ toString c.length ++ " records..." }) :=
    goodTrace_keep h rfl rfl rfl rfl rfl
  have h2 : GoodTrace ({ emit { st with
      message := "Processing batch of " ++ toString c.length ++ " records..." } with
      seen := [] }) := goodTrace_keep (goodTrace_emit h1) rfl rfl rfl rfl rfl
  exact goodTrace_runRows env cfg c _ h2 hcap

/-- Across one batch the total is fixed and the processed counter grows
by at most the batch size. -/
theorem runBatch_keeps (env : Env) (cfg : Config) (st : ProcState) (c : List (Row × Nat)) :
    (runBatch env cfg st c).totalRecords = st.totalRecords ∧
    (runBatch env cfg st c).processed ≤ st.processed + c.length := by
  unfold runBatch
  obtain ⟨k1, k2⟩ := runRows_keeps env cfg c
    ({ emit { st with message := "Processing batch of " ++ toString c.length ++ " records..." }
      with seen := [] })
  exact ⟨k1, k2⟩

/-- The batch loop preserves the trace invariant while the pending rows
still fit under the total. -/
theorem goodTrace_runChunks (env : Env) (cfg : Config) :
    ∀ (l : List (List (Row × Nat))) (st : ProcState), GoodTrace st →
      (0 < st.totalRecords →
        (st.processed : Int) + (((l.map List.length).sum : Nat) : Int) ≤ st.totalRecords) →
      GoodTrace (runChunks env cfg st l) := by
  intro l
  induction l with
  | nil => intro st h _; exact h
  | cons c cs ih =>
    intro st h hcap
    simp only [runChunks]
    split
    · apply ih
      · apply goodTrace_runBatch env cfg st c h
        intro hpos
        have h0 := hcap hpos
        simp only [List.map_cons, List.sum_cons, Nat.cast_add] at h0
        omega
      · obtain ⟨k1, k2⟩ := runBatch_keeps env cfg st c
        intro hpos
        rw [k1] at hpos ⊢
        have h0 := hcap hpos
        simp only [List.map_cons, List.sum_cons, Nat.cast_add] at h0
        omega
    · apply ih st h
      intro hpos
      have h0 := hcap hpos
      simp only [List.map_cons, List.sum_cons, Nat.cast_add] at h0
      omega

/-- One parse step preserves the trace invariant. -/
theorem goodTrace_parseStep (cfg : Config) (headers : List String) (st : ProcState)
    (row : Row) (h : GoodTrace st) : GoodTrace (parseStep cfg headers st row) := by
  simp only [parseStep]
  have hg := goodTrace_checkCancel cfg h
  rcases hcc : checkCancel cfg st with ⟨st', c⟩
  rw [hcc] at hg
  cases c with
  | true => exact goodTrace_tick hg
  | false =>
    simp only [Bool.false_eq_true, if_false]
    split
    · split
      · exact goodTrace_emit (goodTrace_keep (goodTrace_tick hg) rfl rfl rfl rfl rfl)
      · exact goodTrace_keep (goodTrace_tick hg) rfl rfl rfl rfl rfl
    · exact goodTrace_keep (goodTrace_tick hg) rfl rfl rfl rfl rfl

/-- The whole parse phase preserves the trace invariant. -/
theorem goodTrace_parse_fold (cfg : Config) (headers : List String) :
    ∀ (rows : List Row) (st : ProcState), GoodTrace st →
      GoodTrace (rows.foldl (parseStep cfg headers) st) := by
  intro rows
  induction rows with
  | nil => intro st h; exact h
  | cons r rest ih =>
    intro st h
    rw [List.foldl_cons]
    exact ih _ (goodTrace_parseStep cfg headers st r h)

/-- One parse step keeps the counters and the total, and grows the batch
by at most one row. -/
theorem parseStep_keeps (cfg : Config) (headers : List String) (st : ProcState) (row : Row) :
    (parseStep cfg headers st row).processed = st.processed ∧
    (parseStep cfg headers st row).totalRecords = st.totalRecords ∧
    (parseStep cfg headers st row).batch.length ≤ st.batch.length + 1 := by
  simp only [parseStep, checkCancel, emit, tick]
  repeat' split
  all_goals refine ⟨rfl, rfl, ?_⟩
  all_goals simp

/-- The whole parse phase keeps the counters and the total, and collects
at most one batch entry per data row. -/
theorem parse_fold_keeps (cfg : Config) (headers : List String) :
    ∀ (rows : List Row) (st : ProcState),
      (rows.foldl (parseStep cfg headers) st).processed = st.processed ∧
      (rows.foldl (parseStep cfg headers) st).totalRecords = st.totalRecords ∧
      (rows.foldl (parseStep cfg headers) st).batch.length ≤
        st.batch.length + rows.length := by
  intro rows
  induction rows with
  | nil => intro st; exact ⟨rfl, rfl, Nat.le_add_right _ _⟩
  | cons r rest ih =>
    intro st
    rw [List.foldl_cons]
    obtain ⟨s1, s2, s3⟩ := parseStep_keeps cfg headers st r
    obtain ⟨i1, i2, i3⟩ := ih (parseStep cfg headers st r)
    refine ⟨by rw [i1, s1], by rw [i2, s2], ?_⟩
    calc (rest.foldl (parseStep cfg headers) (parseStep cfg headers st r)).batch.length
        ≤ (parseStep cfg headers st r).batch.length + rest.length := by
          exact i3
      _ ≤ st.batch.length + (r :: rest).length := by simp at s3 ⊢; omega

/-- The batch grouping never invents rows: the chunk sizes sum to at most
the input length. -/
theorem makeChunksGo_sum_le (bs : Nat) :
    ∀ (l acc : List (Row × Nat)),
      ((makeChunksGo bs l acc).map List.length).sum ≤ acc.length + l.length := by
  intro l
  induction l with
  | nil => intro acc; simp [makeChunksGo]
  | cons x rest ih =>
    intro acc
    cases rest with
    | nil => simp [makeChunksGo]
    | cons y t =>
      simp only [makeChunksGo]
      split
      · have h0 := ih []
        simp only [List.map_cons, List.sum_cons, List.length_append] at h0 ⊢
        simp at h0 ⊢
        omega
      · have h0 := ih (acc ++ [x])
        simp only [List.length_append] at h0 ⊢
        simp at h0 ⊢
        omega

/-- The chunk sizes sum to at most the number of collected rows. -/
theorem makeChunks_sum_le (bs : Nat) (l : List (Row × Nat)) :
    ((makeChunks bs l).map List.length).sum ≤ l.length := by
  have := makeChunksGo_sum_le bs l []
  simpa [makeChunks] using this

/-- The constructor's state satisfies the trace invariant. -/
theorem goodTrace_init : GoodTrace initState := by
  unfold initState
  apply goodTrace_emit
  refine ⟨List.chain'_nil, ?_, ?_, by norm_num⟩
  · intro s hs
    simp at hs
  · intro s hs
    simp at hs

/-- The counting phase fixes the total to the row count, or to zero when
the up-front count fails. -/
theorem preParse_total (cfg : Config) (rows : List Row) :
    (preParseState cfg rows).totalRecords =
      (if cfg.countFails then 0 else (rows.length : Int)) := by
  simp only [preParseState, emit, initState]
  split <;> rfl

/-- The pre-parse phase satisfies the trace invariant. -/
theorem goodTrace_preParse (cfg : Config) (rows : List Row) :
    GoodTrace (preParseState cfg rows) := by
  have h0 := goodTrace_init
  have h1 : GoodTrace ({ initState with message := "Counting total records..." }) :=
    goodTrace_keep h0 rfl rfl rfl rfl rfl
  have h2 := goodTrace_emit h1
  unfold preParseState
  by_cases hcf : cfg.countFails = true
  · simp only [hcf, if_true]
    have h3 : GoodTrace ({ emit { initState with message := "Counting total records..." } with
        totalRecords := 0 }) := goodTrace_keep h2 rfl rfl rfl rfl rfl
    have h4 : GoodTrace ({ { emit { initState with
        message := "Counting total records..." } with totalRecords := 0 } with
        message := "Initializing CSV processing..." }) :=
      goodTrace_keep h3 rfl rfl rfl rfl rfl
    exact goodTrace_emit h4
  · simp only [Bool.not_eq_true] at hcf
    simp only [hcf, Bool.false_eq_true, if_false]
    have h3 : GoodTrace ({ emit { initState with message := "Counting total records..." } with
        totalRecords := (rows.length : Int) }) := goodTrace_keep h2 rfl rfl rfl rfl rfl
    have h4 : GoodTrace ({ { emit { initState with
        message := "Counting total records..." } with totalRecords := (rows.length : Int) } with
        message := "Initializing CSV processing..." }) :=
      goodTrace_keep h3 rfl rfl rfl rfl rfl
    exact goodTrace_emit h4

/-- The finalization preserves the trace invariant (the clamped progress
is exactly 100). -/
theorem goodTrace_finishRun (cfg : Config) (st : ProcState) (h : GoodTrace st) :
    GoodTrace (finishRun cfg st) := by
  unfold finishRun
  apply goodTrace_emit
  have hbase :
      GoodTrace (if st.totalRecords = 0 then
        { st with totalRecords := (st.rowNumber : Int) - 1 } else st) := by
    split
    · exact goodTrace_keep h rfl rfl rfl rfl rfl
    · exact h
  exact goodTrace_mut hbase rfl le_rfl le_rfl le_rfl le_rfl

/-- C5: over the sequence of Progress snapshots emitted during any run —
any environment, any options (dry run, batch size, cancellation point,
count failure), any headers, any rows — the processed, inserted and
failed counters are non-decreasing (pairwise along the whole emitted
sequence), and the progress percentage never exceeds 100. -/
theorem c5_progress_monotonic (env : Env) (cfg : Config) (headers : List String)
    (rows : List Row) :
    List.Pairwise SnapLe (processFile env cfg headers rows).2.trace ∧
    ∀ s ∈ (processFile env cfg headers rows).2.trace, s.progressPct ≤ 100 := by
  have hg : GoodTrace (processFile env cfg headers rows).2 := by
    simp only [processFile]
    apply goodTrace_finishRun
    apply goodTrace_runChunks
    · exact goodTrace_parse_fold cfg headers rows _ (goodTrace_preParse cfg rows)
    · intro hpos
      obtain ⟨k1, k2, k3⟩ := parse_fold_keeps cfg headers rows (preParseState cfg rows)
      obtain ⟨_, pbatch, _, pproc, _⟩ := preParseState_projs cfg rows
      have htot := preParse_total cfg rows
      have hsum := makeChunks_sum_le cfg.batchSize
        ((rows.foldl (parseStep cfg headers) (preParseState cfg rows)).batch)
      rw [k2, htot] at hpos
      rw [k1, pproc, k2, htot]
      rw [pbatch] at k3
      cases hcf : cfg.countFails with
      | true =>
        rw [hcf] at hpos
        simp at hpos
      | false =>
        rw [hcf] at hpos
        simp only [Bool.false_eq_true, if_false] at hpos ⊢
        have hlen : ((makeChunks cfg.batchSize
            ((rows.foldl (parseStep cfg headers) (preParseState cfg rows)).batch)).map
              List.length).sum ≤ rows.length := by
          calc _ ≤ ((rows.foldl (parseStep cfg headers) (preParseState cfg rows)).batch).length :=
                hsum
            _ ≤ 0 + rows.length := k3
            _ = rows.length := by omega
        omega
  exact ⟨List.chain'_iff_pairwise.mp hg.1, hg.2.1⟩

end Uploader
